import Mathlib

/-!
# Byte-range index of the PLFS container (ByteRangeIndex.cpp)

A shallow embedding of the entry points of `ByteRangeIndex.cpp`.  The index
object is a record of its C++ fields, the process-wide state touched by the
entry points (the backend call history and the umask) is a second record that
is passed along, and the backend store is an oracle whose answers may depend
on the whole history of calls made so far.

Three things can keep an entry point from returning, and each is an outcome an
entry point can have here: `Util::MutexLock` on a mutex that is already held
(nobody is left to release it in a sequential run), the dereference of a null
`iwriteback` in `index_close`, and an `assert` of `index_query` that fails.
-/

namespace PLFS

/-! ## Machine types -/

/-- Signed 64-bit file offset (`off_t`), as its integer value. -/
abbrev off_t := Int

/-- Unsigned 64-bit size (`size_t`), as its natural value. -/
abbrev size_t := Nat

/-- Process id or MPI rank (`pid_t`, a signed 32-bit integer). -/
abbrev pid_t := Int

/-- An `IOSHandle *` that is not null, named by its address. -/
abbrev IOSHandle := Nat

/-- A `struct plfs_backend *` that is not null, named by its address. -/
abbrev plfs_backend := Nat

/-- An IEEE-754 `double`, kept as its bit pattern: the index only copies timestamps. -/
structure double where
  bits : Nat
  deriving DecidableEq

/-- Two's complement wrap of an integer into the range of a 32-bit `int`. -/
def wrap_int (x : Int) : Int := (x + 2 ^ 31) % 2 ^ 32 - 2 ^ 31

/-- Two's complement wrap of an integer into the range of `off_t`. -/
def wrap_off_t (x : Int) : Int := (x + 2 ^ 63) % 2 ^ 64 - 2 ^ 63

/-- Conversion of an `off_t` value to `size_t` (reduction modulo 2^64). -/
def to_size_t (x : Int) : size_t := (x % 2 ^ 64).toNat

/-- `O_RDONLY` of `<fcntl.h>`. -/
def O_RDONLY : Int := 0

/-- `O_WRONLY` of `<fcntl.h>`. -/
def O_WRONLY : Int := 1

/-- `O_RDWR` of `<fcntl.h>`. -/
def O_RDWR : Int := 2

/-- `O_CREAT` of `<fcntl.h>` (Linux value, octal 0100). -/
def O_CREAT : Nat := 64

/-- `O_APPEND` of `<fcntl.h>` (Linux value, octal 02000). -/
def O_APPEND : Nat := 1024

/-- Modelled from the spec: the error type `plfs_error_t` is declared in a header that is
not under src/.  The code names two of its values, `PLFS_SUCCESS` and `PLFS_ENOTSUP`; every
other error the backend can hand back is `PLFS_E code`. -/
inductive plfs_error_t where
  | PLFS_SUCCESS
  | PLFS_ENOTSUP
  | PLFS_E (code : Nat)
  deriving DecidableEq

open plfs_error_t

/-! ## Records (ByteRangeIndex.h) -/

/-- The class `HostEntry`: the on-disk record of an index dropping. -/
structure HostEntry where
  logical_offset : off_t
  physical_offset : off_t
  length : size_t
  begin_timestamp : double
  end_timestamp : double
  id : pid_t
  deriving DecidableEq

/-- The class `ContainerEntry`: a `HostEntry` with the chunk it came from. -/
structure ContainerEntry extends HostEntry where
  original_chunk : pid_t
  deriving DecidableEq

/-- The struct `ChunkFile`. -/
structure ChunkFile where
  bpath : String
  backend : Option plfs_backend
  fh : Option IOSHandle
  deriving DecidableEq

/-- The fields of the open file (`Container_OpenFile`) that the index reads. -/
structure Container_OpenFile where
  canbpath : String
  canback : plfs_backend
  openflags : Int
  subdir_path : String
  hostname : String
  pid : pid_t
  subdirback : plfs_backend
  deriving DecidableEq

/-- The fields of `struct plfs_physpathinfo` that name a container; the entry points that take
one read none of them. -/
structure plfs_physpathinfo where
  canbpath : String
  canback : plfs_backend
  deriving DecidableEq

/-- Modelled from the spec: `index_record` is declared outside src/.  It is one read instruction
of a query: a chunk, a physical offset and a length, or a hole of that length. -/
structure index_record where
  hole : Bool
  chunk_id : Int
  physical_offset : off_t
  length : size_t
  deriving DecidableEq

/-- The fields of `Plfs_open_opt` that `index_open` reads; `index_stream` is null or an address. -/
structure Plfs_open_opt where
  index_stream : Option Nat
  uniform_restart_enable : Bool
  uniform_restart_rank : pid_t
  deriving DecidableEq

/-! ## The index object and its surroundings -/

/-- The data members of the class `ByteRangeIndex`; `bri_mutex` is true while the mutex is held.
The member `nchunks` is the one the constructor, `index_open` and `index_close` assign. -/
structure ByteRangeIndex where
  bri_mutex : Bool
  isopen : Bool
  brimode : Int
  eof_tracker : off_t
  writebuf : List HostEntry
  write_count : Int
  write_bytes : off_t
  iwritefh : Option IOSHandle
  iwriteback : Option plfs_backend
  idx : List (off_t × ContainerEntry)
  chunk_map : List ChunkFile
  nchunks : Int
  backing_bytes : off_t
  deriving DecidableEq

/-- The members the index loaders fill in (`merge_dropping` and `merge_idx` take exactly these). -/
structure ReadSide where
  idx : List (off_t × ContainerEntry)
  chunk_map : List ChunkFile
  nchunks : Int
  eof_tracker : off_t
  backing_bytes : off_t
  deriving DecidableEq

/-- One call that leaves `ByteRangeIndex.cpp`: a backend store call or an index load. -/
inductive Call where
  | Writen (fh : IOSHandle) (buf : List HostEntry) (len : Nat)
  | Close (back : plfs_backend) (fh : IOSHandle)
  | Open (back : plfs_backend) (path : String) (flags : Nat) (mode : Nat) (umask : Nat)
  | global_from_stream (addr : Nat)
  | populateIndex (path : String) (canback : plfs_backend) (use_global : Bool)
      (urestart : Bool) (upid : pid_t)
  | query_helper (input_offset : off_t) (input_length : size_t)
  deriving DecidableEq

/-- The state outside the index object: the calls made so far, oldest first, and the process umask. -/
structure World where
  trace : List Call
  umask : Nat
  deriving DecidableEq

/-- Everything `ByteRangeIndex.cpp` uses and does not define: two build constants and the
answers of the backend store, of the index loaders and of the query helper, each a function of
the calls made so far and of the arguments of the call.  The query helper reads the index it
is called on and the result list it is handed, and hands back the list it leaves. -/
structure Env where
  sizeof_HostEntry : Nat
  DROPPING_MODE : Nat
  Writen : List Call → IOSHandle → List HostEntry → Nat → plfs_error_t
  Close : List Call → plfs_backend → IOSHandle → plfs_error_t
  Open : List Call → plfs_backend → String → Nat → Nat → plfs_error_t × Option IOSHandle
  global_from_stream : List Call → ReadSide → Nat → plfs_error_t × ReadSide
  populateIndex : List Call → ReadSide → String → plfs_backend → Bool → Bool → pid_t →
    plfs_error_t × ReadSide
  query_helper : List Call → ByteRangeIndex → Container_OpenFile → off_t → size_t →
    List index_record → plfs_error_t × List index_record

/-- What an entry point hands back: its return value, the index object and the world after it. -/
structure Result where
  ret : plfs_error_t
  bri : ByteRangeIndex
  world : World
  deriving DecidableEq

/-- What `index_close` hands back: a `Result` and the two out-parameters, `none` where nothing
was stored through the pointer. -/
structure CloseResult extends Result where
  lastoff : Option off_t
  tbytes : Option size_t
  deriving DecidableEq

/-- What `index_query` hands back: a `Result` and the result list as the call leaves it. -/
structure QueryResult extends Result where
  result : List index_record
  deriving DecidableEq

/-- Why an entry point does not return. -/
inductive Fault where
  | blocked
  | null_deref
  | assert_failed
  deriving DecidableEq

/-- Modelled from the spec: `Util::MutexLock` is defined outside src/.  It takes the mutex; a
caller that finds the mutex held blocks, and in a sequential run nobody is left to release it. -/
def Util.MutexLock (m : Bool) : Except Fault Bool :=
  if m then Except.error Fault.blocked else Except.ok true

/-- Modelled from the spec: `Util::MutexUnlock` is defined outside src/.  It releases the mutex. -/
def Util.MutexUnlock (_m : Bool) : Bool := false

/-- The read-side members of an index. -/
def ByteRangeIndex.readSide (s : ByteRangeIndex) : ReadSide :=
  { idx := s.idx, chunk_map := s.chunk_map, nchunks := s.nchunks,
    eof_tracker := s.eof_tracker, backing_bytes := s.backing_bytes }

/-- Store the read-side members a loader produced. -/
def ByteRangeIndex.setReadSide (s : ByteRangeIndex) (r : ReadSide) : ByteRangeIndex :=
  { s with idx := r.idx, chunk_map := r.chunk_map, nchunks := r.nchunks,
           eof_tracker := r.eof_tracker, backing_bytes := r.backing_bytes }

/-- The constructor `ByteRangeIndex::ByteRangeIndex(PlfsMount *)` (lines 55-67); the mutex is
initialised free and the three containers are empty. -/
def ByteRangeIndex.new : ByteRangeIndex :=
  { bri_mutex := false
    isopen := false
    brimode := -1
    eof_tracker := 0
    write_count := 0
    write_bytes := 0
    iwritefh := none
    iwriteback := none
    nchunks := 0
    backing_bytes := 0
    writebuf := []
    idx := []
    chunk_map := [] }

/-- The private `ByteRangeIndex::flush_writebuf` (lines 22-47); the caller holds the mutex.
The byte count `len * sizeof(HostEntry)` is taken without wrap: a vector cannot hold so many
records that it exceeds `size_t`. -/
def ByteRangeIndex.flush_writebuf (env : Env) (s : ByteRangeIndex) (w : World) : Result :=
  let len := s.writebuf.length
  if len ≠ 0 then
    match s.iwritefh with
    | some fh =>
      let len := len * env.sizeof_HostEntry
      let ret := env.Writen w.trace fh s.writebuf len
      { ret := ret
        bri := { s with writebuf := [] }
        world := { w with trace := w.trace ++ [Call.Writen fh s.writebuf len] } }
    | none => { ret := PLFS_SUCCESS, bri := s, world := w }
  else { ret := PLFS_SUCCESS, bri := s, world := w }

/-- The record `index_add` builds from its arguments (lines 236-243). -/
def newent (nbytes : size_t) (offset : off_t) (pid : pid_t) (physoffset : off_t)
    (begin_timestamp end_timestamp : double) : HostEntry :=
  { logical_offset := offset
    physical_offset := physoffset
    length := nbytes
    begin_timestamp := begin_timestamp
    end_timestamp := end_timestamp
    id := pid }

/-- The entry point `ByteRangeIndex::index_add` (lines 230-258); `cof` is not read.
`write_count++` wraps as a 32-bit `int`, `write_bytes += nbytes` as `off_t`, and `%` is the
truncating remainder of C++. -/
def ByteRangeIndex.index_add (env : Env) (s : ByteRangeIndex) (w : World)
    (nbytes : size_t) (offset : off_t) (pid : pid_t)
    (physoffset : off_t) (begin_timestamp end_timestamp : double) : Except Fault Result :=
  match Util.MutexLock s.bri_mutex with
  | Except.error f => Except.error f
  | Except.ok m =>
    let s1 : ByteRangeIndex :=
      { s with bri_mutex := m
               writebuf := s.writebuf ++
                 [newent nbytes offset pid physoffset begin_timestamp end_timestamp]
               write_count := wrap_int (s.write_count + 1)
               write_bytes := wrap_off_t (s.write_bytes + nbytes) }
    let r : Result :=
      if Int.tmod s1.write_count 1024 = 0 then s1.flush_writebuf env w
      else { ret := PLFS_SUCCESS, bri := s1, world := w }
    Except.ok { r with bri := { r.bri with bri_mutex := Util.MutexUnlock r.bri.bri_mutex } }

/-- The entry point `ByteRangeIndex::index_sync` (lines 266-278); `cof` is not read. -/
def ByteRangeIndex.index_sync (env : Env) (s : ByteRangeIndex) (w : World) :
    Except Fault Result :=
  match Util.MutexLock s.bri_mutex with
  | Except.error f => Except.error f
  | Except.ok m =>
    let r := ({ s with bri_mutex := m } : ByteRangeIndex).flush_writebuf env w
    Except.ok { r with bri := { r.bri with bri_mutex := Util.MutexUnlock r.bri.bri_mutex } }

/-- Lines 108-125 of `index_open`: load the index, from the stream the caller passed or from
the droppings of the container. -/
def ByteRangeIndex.index_open_load (env : Env) (s : ByteRangeIndex) (w : World)
    (cof : Container_OpenFile) (open_opt : Option Plfs_open_opt) : Result :=
  match open_opt.bind (fun o => o.index_stream) with
  | some addr =>
    let p := env.global_from_stream w.trace s.readSide addr
    { ret := p.1
      bri := s.setReadSide p.2
      world := { w with trace := w.trace ++ [Call.global_from_stream addr] } }
  | none =>
    let urestart := match open_opt with
      | some o => o.uniform_restart_enable
      | none => false
    let upid := match open_opt with
      | some o => o.uniform_restart_rank
      | none => 0
    let p := env.populateIndex w.trace s.readSide cof.canbpath cof.canback true urestart upid
    { ret := p.1
      bri := s.setReadSide p.2
      world := { w with trace := w.trace ++
        [Call.populateIndex cof.canbpath cof.canback true urestart upid] } }

/-- The entry point `ByteRangeIndex::index_open` (lines 84-146). -/
def ByteRangeIndex.index_open (env : Env) (s : ByteRangeIndex) (w : World)
    (cof : Container_OpenFile) (open_flags : Int) (open_opt : Option Plfs_open_opt) :
    Except Fault Result :=
  match Util.MutexLock s.bri_mutex with
  | Except.error f => Except.error f
  | Except.ok m =>
    let s0 : ByteRangeIndex := { s with bri_mutex := m }
    let r : Result :=
      if open_flags ≠ O_WRONLY then
        let l := s0.index_open_load env w cof open_opt
        if l.ret = PLFS_SUCCESS ∧ open_flags = O_RDWR then
          { l with bri := { l.bri with idx := [], chunk_map := [], nchunks := 0 } }
        else l
      else { ret := PLFS_SUCCESS, bri := s0, world := w }
    let s2 : ByteRangeIndex :=
      if r.ret = PLFS_SUCCESS then { r.bri with isopen := true, brimode := open_flags }
      else r.bri
    Except.ok { r with bri := { s2 with bri_mutex := Util.MutexUnlock s2.bri_mutex } }

/-- Lines 187-199 of `index_close`, the body of `if (this->brimode != O_RDONLY)`: flush the
buffer, zero the counters, close the handle through `iwriteback->store` and forget the backend. -/
def ByteRangeIndex.index_close_wside (env : Env) (s : ByteRangeIndex) (w : World) :
    Except Fault Result :=
  let r := s.flush_writebuf env w
  let s1 : ByteRangeIndex := { r.bri with write_count := 0, write_bytes := 0 }
  match s1.iwritefh with
  | some fh =>
    match s1.iwriteback with
    | some back =>
      let rv := env.Close r.world.trace back fh
      Except.ok
        { ret := if r.ret = PLFS_SUCCESS ∧ rv ≠ PLFS_SUCCESS then rv else r.ret
          bri := { s1 with iwriteback := none }
          world := { r.world with trace := r.world.trace ++ [Call.Close back fh] } }
    | none => Except.error Fault.null_deref
  | none => Except.ok { ret := r.ret, bri := { s1 with iwriteback := none }, world := r.world }

/-- Lines 201-207 of `index_close`: free the read-side memory. -/
def ByteRangeIndex.index_close_rside (s : ByteRangeIndex) : ByteRangeIndex :=
  if s.brimode ≠ O_WRONLY then
    { s with idx := [], chunk_map := [], nchunks := 0, backing_bytes := 0 }
  else s

/-- The entry point `ByteRangeIndex::index_close` (lines 157-216); `cof` and `close_opt` are
not read, `lastoffp` and `tbytesp` say whether the pointer of that name is non-null.  The
`goto done` of an index that is not open lands behind `Util::MutexUnlock`. -/
def ByteRangeIndex.index_close (env : Env) (s : ByteRangeIndex) (w : World)
    (lastoffp tbytesp : Bool) : Except Fault CloseResult :=
  match Util.MutexLock s.bri_mutex with
  | Except.error f => Except.error f
  | Except.ok m =>
    let s0 : ByteRangeIndex := { s with bri_mutex := m }
    if ¬ s0.isopen then
      Except.ok { ret := PLFS_SUCCESS, bri := s0, world := w, lastoff := none, tbytes := none }
    else
      let lastoff := if lastoffp then some s0.eof_tracker else none
      let tbytes :=
        if tbytesp then
          some (to_size_t (if s0.brimode ≠ O_RDONLY then s0.write_bytes else s0.backing_bytes))
        else none
      let wr : Except Fault Result :=
        if s0.brimode ≠ O_RDONLY then s0.index_close_wside env w
        else Except.ok { ret := PLFS_SUCCESS, bri := s0, world := w }
      match wr with
      | Except.error f => Except.error f
      | Except.ok r =>
        let s2 := r.bri.index_close_rside
        let s3 : ByteRangeIndex := { s2 with brimode := -1, isopen := false }
        Except.ok
          { ret := r.ret
            bri := { s3 with bri_mutex := Util.MutexUnlock s3.bri_mutex }
            world := r.world
            lastoff := lastoff
            tbytes := tbytes }

/-- Modelled from the spec: the macro `INDEXPREFIX` is defined outside src/; the header names
index droppings `dropping.index.SEC.USEC.HOST.PID`. -/
def INDEXPREFIX : String := "dropping.index."

/-- The entry point `ByteRangeIndex::index_new_wdrop` (lines 395-431); the `pid` and `filename`
arguments are not read.  `umask(0)` hands back the old mask, which is put back after the open;
the backend open stores what it likes through `&this->iwritefh`. -/
def ByteRangeIndex.index_new_wdrop (env : Env) (s : ByteRangeIndex) (w : World)
    (cof : Container_OpenFile) (ts : String) (_pid : pid_t) (_filename : String) :
    Except Fault Result :=
  if s.iwritefh ≠ none then Except.ok { ret := PLFS_SUCCESS, bri := s, world := w }
  else
    match Util.MutexLock s.bri_mutex with
    | Except.error f => Except.error f
    | Except.ok m =>
      let s0 : ByteRangeIndex := { s with bri_mutex := m }
      let r : Result :=
        if s0.iwritefh = none then
          let idrop_path := cof.subdir_path ++ "/" ++ INDEXPREFIX ++ ts ++ "." ++
            cof.hostname ++ "." ++ toString cof.pid
          let old_mode := w.umask
          let flags := O_WRONLY.toNat ||| O_APPEND ||| O_CREAT
          let p := env.Open w.trace cof.subdirback idrop_path flags env.DROPPING_MODE
          let s1 : ByteRangeIndex := { s0 with iwritefh := p.2 }
          { ret := p.1
            bri := if p.1 = PLFS_SUCCESS then { s1 with iwriteback := some cof.subdirback }
                   else s1
            world :=
              { trace := w.trace ++
                  [Call.Open cof.subdirback idrop_path flags env.DROPPING_MODE 0]
                umask := old_mode } }
        else { ret := PLFS_SUCCESS, bri := s0, world := w }
      Except.ok { r with bri := { r.bri with bri_mutex := Util.MutexUnlock r.bri.bri_mutex } }

/-- The entry point `ByteRangeIndex::index_query` (lines 292-340).  The two `assert`s stop the
call when they fail.  With `cof->openflags == O_RDWR` the target is a temporary index,
constructed, opened `O_RDONLY` with no open options, queried under its own mutex, closed with
null out-pointers (the return value of that close is dropped) and deleted; otherwise the target
is this index. -/
def ByteRangeIndex.index_query (env : Env) (s : ByteRangeIndex) (w : World)
    (cof : Container_OpenFile) (input_offset : off_t) (input_length : size_t)
    (result : List index_record) : Except Fault QueryResult :=
  if cof.openflags = O_WRONLY then Except.error Fault.assert_failed
  else if ¬ s.isopen then Except.error Fault.assert_failed
  else if cof.openflags = O_RDWR then
    match ByteRangeIndex.new.index_open env w cof O_RDONLY none with
    | Except.error f => Except.error f
    | Except.ok t =>
      if t.ret ≠ PLFS_SUCCESS then
        Except.ok { ret := t.ret, bri := s, world := t.world, result := result }
      else
        match Util.MutexLock t.bri.bri_mutex with
        | Except.error f => Except.error f
        | Except.ok m =>
          let target : ByteRangeIndex := { t.bri with bri_mutex := m }
          let q := env.query_helper t.world.trace target cof input_offset input_length result
          let w1 : World :=
            { t.world with trace := t.world.trace ++
                [Call.query_helper input_offset input_length] }
          let target1 : ByteRangeIndex :=
            { target with bri_mutex := Util.MutexUnlock target.bri_mutex }
          match target1.index_close env w1 false false with
          | Except.error f => Except.error f
          | Except.ok c => Except.ok { ret := q.1, bri := s, world := c.world, result := q.2 }
  else
    match Util.MutexLock s.bri_mutex with
    | Except.error f => Except.error f
    | Except.ok m =>
      let target : ByteRangeIndex := { s with bri_mutex := m }
      let q := env.query_helper w.trace target cof input_offset input_length result
      Except.ok
        { ret := q.1
          bri := { target with bri_mutex := Util.MutexUnlock target.bri_mutex }
          world := { w with trace := w.trace ++ [Call.query_helper input_offset input_length] }
          result := q.2 }

/-- The entry point `ByteRangeIndex::index_truncate` (lines 342-359): a stub. -/
def ByteRangeIndex.index_truncate (s : ByteRangeIndex) (w : World)
    (_cof : Container_OpenFile) (_offset : off_t) : Result :=
  { ret := PLFS_ENOTSUP, bri := s, world := w }

/-- The entry point `ByteRangeIndex::index_closing_wdrop` (lines 370-384): nothing to do, the
shared index dropping is closed by `index_close`. -/
def ByteRangeIndex.index_closing_wdrop (s : ByteRangeIndex) (w : World)
    (_cof : Container_OpenFile) (_ts : String) (_pid : pid_t) (_filename : String) : Result :=
  { ret := PLFS_SUCCESS, bri := s, world := w }

/-- The entry point `ByteRangeIndex::index_optimize` (lines 433-467): a stub, its old body is
compiled out. -/
def ByteRangeIndex.index_optimize (s : ByteRangeIndex) (w : World)
    (_cof : Container_OpenFile) : Result :=
  { ret := PLFS_ENOTSUP, bri := s, world := w }

/-- The entry point `ByteRangeIndex::index_getattr_size` (lines 469-475): a stub; `stbuf`,
`openset` and `metaset` are neither read nor written. -/
def ByteRangeIndex.index_getattr_size (s : ByteRangeIndex) (w : World)
    (_ppip : plfs_physpathinfo) : Result :=
  { ret := PLFS_ENOTSUP, bri := s, world := w }

/-- The entry point `ByteRangeIndex::index_droppings_rename` (lines 485-492): nothing to do. -/
def ByteRangeIndex.index_droppings_rename (s : ByteRangeIndex) (w : World)
    (_src _dst : plfs_physpathinfo) : Result :=
  { ret := PLFS_SUCCESS, bri := s, world := w }

/-- The entry point `ByteRangeIndex::index_droppings_trunc` (lines 505-569): a stub, its old
body is compiled out. -/
def ByteRangeIndex.index_droppings_trunc (s : ByteRangeIndex) (w : World)
    (_ppip : plfs_physpathinfo) (_offset : off_t) : Result :=
  { ret := PLFS_ENOTSUP, bri := s, world := w }

/-- The entry point `ByteRangeIndex::index_droppings_unlink` (lines 578-585): nothing to do. -/
def ByteRangeIndex.index_droppings_unlink (s : ByteRangeIndex) (w : World)
    (_ppip : plfs_physpathinfo) : Result :=
  { ret := PLFS_SUCCESS, bri := s, world := w }

/-- The entry point `ByteRangeIndex::index_droppings_zero` (lines 594-601): nothing to do, the
container layer deletes the droppings. -/
def ByteRangeIndex.index_droppings_zero (s : ByteRangeIndex) (w : World)
    (_ppip : plfs_physpathinfo) : Result :=
  { ret := PLFS_SUCCESS, bri := s, world := w }

/-! ## Runs of entry points -/

/-- The arguments of one `index_add` call. -/
structure AddArgs where
  nbytes : size_t
  offset : off_t
  pid : pid_t
  physoffset : off_t
  begin_timestamp : double
  end_timestamp : double
  deriving DecidableEq

/-- One call of an entry point, with its arguments. -/
inductive Op where
  | index_open (cof : Container_OpenFile) (open_flags : Int) (open_opt : Option Plfs_open_opt)
  | index_new_wdrop (cof : Container_OpenFile) (ts : String) (pid : pid_t) (filename : String)
  | index_add (a : AddArgs)
  | index_sync
  | index_close (lastoffp tbytesp : Bool)
  deriving DecidableEq

/-- A `Result` as a `CloseResult` that stored nothing through the out-parameters. -/
def Result.noOut (r : Result) : CloseResult :=
  { ret := r.ret, bri := r.bri, world := r.world, lastoff := none, tbytes := none }

/-- Run one entry point. -/
def step (env : Env) (s : ByteRangeIndex) (w : World) : Op → Except Fault CloseResult
  | Op.index_open cof open_flags open_opt =>
    (s.index_open env w cof open_flags open_opt).map Result.noOut
  | Op.index_new_wdrop cof ts pid filename =>
    (s.index_new_wdrop env w cof ts pid filename).map Result.noOut
  | Op.index_add a =>
    (s.index_add env w a.nbytes a.offset a.pid a.physoffset a.begin_timestamp
      a.end_timestamp).map Result.noOut
  | Op.index_sync => (s.index_sync env w).map Result.noOut
  | Op.index_close lastoffp tbytesp => s.index_close env w lastoffp tbytesp

/-- Where a run of entry points ends: what each call handed back, in call order, and the final
index object and world. -/
structure RunResult where
  outs : List CloseResult
  bri : ByteRangeIndex
  world : World

/-- Run entry points one after the other; the run stops at the first call that does not return. -/
def run (env : Env) (s : ByteRangeIndex) (w : World) : List Op → Except Fault RunResult
  | [] => Except.ok { outs := [], bri := s, world := w }
  | op :: ops =>
    match step env s w op with
    | Except.error f => Except.error f
    | Except.ok r =>
      match run env r.bri r.world ops with
      | Except.error f => Except.error f
      | Except.ok rr => Except.ok { rr with outs := r :: rr.outs }

/-- The world a process starts in: no call made yet. -/
def World.start (umask : Nat) : World := { trace := [], umask := umask }

/-- The states a freshly constructed index can be brought to by calls of the five entry points. -/
def Reachable (env : Env) (umask : Nat) (s : ByteRangeIndex) (w : World) : Prop :=
  ∃ ops rr, run env ByteRangeIndex.new (World.start umask) ops = Except.ok rr ∧
    rr.bri = s ∧ rr.world = w

/-- The records handed to the backend write, in the order they were handed over. -/
def written : List Call → List HostEntry
  | [] => []
  | Call.Writen _ buf _ :: t => buf ++ written t
  | _ :: t => written t

/-- The number of bytes handed to the backend write. -/
def written_len : List Call → Nat
  | [] => 0
  | Call.Writen _ _ len :: t => len + written_len t
  | _ :: t => written_len t

/-- A backend on which every call succeeds; opens hand out handle 7, loads change nothing. -/
def env_ok : Env :=
  { sizeof_HostEntry := 48
    DROPPING_MODE := 420
    Writen := fun _ _ _ _ => PLFS_SUCCESS
    Close := fun _ _ _ => PLFS_SUCCESS
    Open := fun _ _ _ _ _ => (PLFS_SUCCESS, some 7)
    global_from_stream := fun _ r _ => (PLFS_SUCCESS, r)
    populateIndex := fun _ r _ _ _ _ _ => (PLFS_SUCCESS, r)
    query_helper := fun _ _ _ _ _ res => (PLFS_SUCCESS, res) }

/-- A backend on which writes fail with error 5 and closes with error 9. -/
def env_fail : Env :=
  { env_ok with
    Writen := fun _ _ _ _ => PLFS_E 5
    Close := fun _ _ _ => PLFS_E 9 }

/-- An open file to run the entry points on. -/
def cof0 : Container_OpenFile :=
  { canbpath := "/back/file"
    canback := 1
    openflags := O_WRONLY
    subdir_path := "/back/file/hostdir.0"
    hostname := "h"
    pid := 42
    subdirback := 3 }

/-- A write of 100 bytes at logical offset 0. -/
def add0 : AddArgs :=
  { nbytes := 100, offset := 0, pid := 42, physoffset := 0,
    begin_timestamp := { bits := 1 }, end_timestamp := { bits := 2 } }

/-- The record of the write `add0`. -/
def ent0 : HostEntry := newent 100 0 42 0 { bits := 1 } { bits := 2 }

/-- An index open for writing with handle 7 on backend 3, an empty buffer and 1023 writes
counted so far. -/
def bri_w1023 : ByteRangeIndex :=
  { ByteRangeIndex.new with
    isopen := true, brimode := O_WRONLY, iwritefh := some 7, iwriteback := some 3,
    write_count := 1023, write_bytes := 102300 }

/-- An index open for writing with handle 7 on backend 3 and one buffered record. -/
def bri_w1 : ByteRangeIndex :=
  { ByteRangeIndex.new with
    isopen := true, brimode := O_WRONLY, iwritefh := some 7, iwriteback := some 3,
    writebuf := [ent0], write_count := 1, write_bytes := 100 }

/-- Open for writing, create the index dropping, add one record and sync. -/
def ops_add_sync : List Op :=
  [Op.index_open cof0 O_WRONLY none, Op.index_new_wdrop cof0 "1.2" 42 "data", Op.index_add add0,
    Op.index_sync]

/-- Open for writing, create the index dropping and close. -/
def ops_open_wdrop_close : List Op :=
  [Op.index_open cof0 O_WRONLY none, Op.index_new_wdrop cof0 "1.2" 42 "data", Op.index_close true true]

/-- Open for writing, add one record without ever creating the index dropping, and close. -/
def ops_open_add_close : List Op :=
  [Op.index_open cof0 O_WRONLY none, Op.index_add add0, Op.index_close true true]

/-- An index open read-only that loaded one record of 300 bytes out of 500 backing bytes. -/
def bri_r : ByteRangeIndex :=
  { ByteRangeIndex.new with
    isopen := true, brimode := O_RDONLY, eof_tracker := 300, nchunks := 1, backing_bytes := 500,
    idx := [(0, { logical_offset := 0, physical_offset := 200, length := 300,
                  begin_timestamp := { bits := 1 }, end_timestamp := { bits := 2 }, id := 0,
                  original_chunk := 42 })],
    chunk_map := [{ bpath := "/back/file/hostdir.0/dropping.data.1.2.h.42", backend := some 3,
                    fh := none }] }

/-- Open options that hand over a pre-built index stream at address 4096. -/
def opt_stream : Plfs_open_opt :=
  { index_stream := some 4096, uniform_restart_enable := false, uniform_restart_rank := 0 }

/-- A backend whose stream import yields the one-record index of `bri_r`. -/
def env_load : Env :=
  { env_ok with
    global_from_stream := fun _ _ _ => (PLFS_SUCCESS, bri_r.readSide) }

/-- Open for writing and add one record, with no index dropping created. -/
def ops_open_add : List Op := [Op.index_open cof0 O_WRONLY none, Op.index_add add0]

/-- Add one record to the index before it is opened, then open it for writing. -/
def ops_add_open : List Op := [Op.index_add add0, Op.index_open cof0 O_WRONLY none]

/-- The use of the index the write counters rely on: `index_open` is called on an index that is
not open, `index_add` on an index that is open in a mode other than `O_RDONLY`. -/
def Op.allowed (s : ByteRangeIndex) : Op → Bool
  | Op.index_open _ _ _ => !s.isopen
  | Op.index_add _ => s.isopen && decide (s.brimode ≠ O_RDONLY)
  | _ => true

/-- Every call of a run is an allowed one in the state it is made in. -/
def disciplined (env : Env) : ByteRangeIndex → World → List Op → Bool
  | _, _, [] => true
  | s, w, op :: ops =>
    op.allowed s &&
      match step env s w op with
      | Except.ok r => disciplined env r.bri r.world ops
      | Except.error _ => true

/-- The `nbytes` of the `index_add` calls of a run, in call order. -/
def nbytes_of : List Op → List Nat
  | [] => []
  | Op.index_add a :: ops => a.nbytes :: nbytes_of ops
  | _ :: ops => nbytes_of ops

/-- The `nbytes` of the `index_add` calls made since the last `index_open` that returned success,
given the calls of a run, what each handed back, and the `nbytes` counted before the run. -/
def added_since_open : List Op → List CloseResult → List Nat → List Nat
  | Op.index_open _ _ _ :: ops, o :: outs, acc =>
    added_since_open ops outs (if o.ret = PLFS_SUCCESS then [] else acc)
  | Op.index_add a :: ops, _ :: outs, acc => added_since_open ops outs (acc ++ [a.nbytes])
  | _ :: ops, _ :: outs, acc => added_since_open ops outs acc
  | _, _, acc => acc

/-- The write counters agree with the `nbytes` counted for the current open: on an index
open in a mode other than `O_RDONLY` they are the number and the sum of `acc`, otherwise they
are zero; and an index whose mutex is held is not open. -/
def CountersInv (s : ByteRangeIndex) (acc : List Nat) : Prop :=
  (s.bri_mutex = true → s.isopen = false) ∧
  (if s.isopen = true ∧ s.brimode ≠ O_RDONLY then
    s.write_count = (acc.length : Int) ∧ s.write_bytes = (acc.sum : Int)
   else s.write_count = 0 ∧ s.write_bytes = 0)

/-- Open for writing, create the index dropping and add two records. -/
def ops_open_add2 : List Op :=
  [Op.index_open cof0 O_WRONLY none, Op.index_new_wdrop cof0 "1.2" 42 "data", Op.index_add add0,
    Op.index_add add0]

/-- An index open ReadWrite: the map was loaded and discarded, eof_tracker is 300. -/
def bri_rw : ByteRangeIndex :=
  { ByteRangeIndex.new with
    isopen := true, brimode := O_RDWR, eof_tracker := 300, backing_bytes := 500 }

/-- The open file of `cof0`, opened ReadWrite. -/
def cof_rw : Container_OpenFile := { cof0 with openflags := O_RDWR }

/-- One read instruction: 10 bytes at physical offset 200 of chunk 0. -/
def rec0 : index_record := { hole := false, chunk_id := 0, physical_offset := 200, length := 10 }

/-- A backend whose scan yields the one-record index of `bri_r` and whose query helper appends
`rec0` to the result list when the index it is called on holds a record. -/
def env_query : Env :=
  { env_ok with
    populateIndex := fun _ _ _ _ _ _ _ => (PLFS_SUCCESS, bri_r.readSide)
    query_helper := fun _ target _ _ _ res =>
      if target.idx = [] then (PLFS_E 2, res) else (PLFS_SUCCESS, res ++ [rec0]) }

/-- The arguments of one `index_new_wdrop` call. -/
structure WdropArgs where
  cof : Container_OpenFile
  ts : String
  pid : pid_t
  filename : String
  deriving DecidableEq

/-- The call of `index_new_wdrop` with these arguments. -/
def WdropArgs.op (a : WdropArgs) : Op := Op.index_new_wdrop a.cof a.ts a.pid a.filename

/-- The number of backend opens among the calls `t`, made after the calls `pre`, that the
backend answered with success. -/
def open_successes (env : Env) : List Call → List Call → Nat
  | _, [] => 0
  | pre, Call.Open back path flags mode umask :: t =>
    (if (env.Open pre back path flags mode).1 = PLFS_SUCCESS then 1 else 0) +
      open_successes env (pre ++ [Call.Open back path flags mode umask]) t
  | pre, c :: t => open_successes env (pre ++ [c]) t

/-- The path of the index dropping `index_new_wdrop` opens (lines 415-416). -/
def idrop_path (cof : Container_OpenFile) (ts : String) : String :=
  cof.subdir_path ++ "/" ++ INDEXPREFIX ++ ts ++ "." ++ cof.hostname ++ "." ++ toString cof.pid

/-- A backend whose first open fails with error 13 and whose later opens hand out handle 7. -/
def env_retry : Env :=
  { env_ok with
    Open := fun t _ _ _ _ => if t = [] then (PLFS_E 13, none) else (PLFS_SUCCESS, some 7) }

/-- Three calls of `index_new_wdrop` for the open file `cof0`, by different pids. -/
def wdrops3 : List WdropArgs :=
  [{ cof := cof0, ts := "1.2", pid := 42, filename := "data.42" },
   { cof := cof0, ts := "1.2", pid := 43, filename := "data.43" },
   { cof := cof0, ts := "1.2", pid := 44, filename := "data.44" }]

/-- An index that holds a loaded map, a chunk table and one buffered record. -/
def bri_full : ByteRangeIndex := { bri_r with writebuf := [ent0] }

/-- The container of `cof0`, named by its physical path. -/
def ppip0 : plfs_physpathinfo := { canbpath := "/back/file", canback := 1 }

/-- Open for writing, create the index dropping, close, open the same object again, ask for
the index dropping, add one record and sync. -/
def ops_reopen_sync : List Op :=
  ops_open_wdrop_close ++
    [Op.index_open cof0 O_WRONLY none, Op.index_new_wdrop cof0 "3.4" 42 "data",
      Op.index_add add0, Op.index_sync]

/-- Open for writing, create the index dropping, close, open the same object again and close. -/
def ops_reopen_close : List Op :=
  ops_open_wdrop_close ++ [Op.index_open cof0 O_WRONLY none, Op.index_close true true]

/-! ## Properties -/

section lemmas

theorem written_append (t u : List Call) : written (t ++ u) = written t ++ written u := by
  induction t with
  | nil => rfl
  | cons c t ih => cases c <;> simp [written, ih]

theorem written_len_append (t u : List Call) :
    written_len (t ++ u) = written_len t + written_len u := by
  induction t with
  | nil => simp [written_len]
  | cons c t ih => cases c <;> simp [written_len, ih, Nat.add_assoc]

theorem run_append (env : Env) (ops ops2 : List Op) (s : ByteRangeIndex) (w : World) :
    run env s w (ops ++ ops2) =
      match run env s w ops with
      | Except.error f => Except.error f
      | Except.ok rr =>
        match run env rr.bri rr.world ops2 with
        | Except.error f => Except.error f
        | Except.ok rr2 => Except.ok { rr2 with outs := rr.outs ++ rr2.outs } := by
  induction ops generalizing s w with
  | nil =>
    simp only [List.nil_append, run]
    cases run env s w ops2 <;> simp
  | cons op ops ih =>
    rw [List.cons_append]
    simp only [run]
    cases hs : step env s w op with
    | error f => rfl
    | ok r =>
      simp only [ih]
      cases h1 : run env r.bri r.world ops with
      | error f => rfl
      | ok rr => cases h2 : run env rr.bri rr.world ops2 <;> simp [h2]

theorem flush_writebuf_some (env : Env) (s : ByteRangeIndex) (w : World) (fh : IOSHandle)
    (hfh : s.iwritefh = some fh) (hbuf : s.writebuf ≠ []) :
    s.flush_writebuf env w =
      { ret := env.Writen w.trace fh s.writebuf (s.writebuf.length * env.sizeof_HostEntry)
        bri := { s with writebuf := [] }
        world := { w with trace := w.trace ++
          [Call.Writen fh s.writebuf (s.writebuf.length * env.sizeof_HostEntry)] } } := by
  have hlen : s.writebuf.length ≠ 0 := fun h => hbuf (List.length_eq_zero.mp h)
  simp [ByteRangeIndex.flush_writebuf, hfh, hlen]

theorem flush_writebuf_nil (env : Env) (s : ByteRangeIndex) (w : World)
    (hbuf : s.writebuf = []) :
    s.flush_writebuf env w = { ret := PLFS_SUCCESS, bri := s, world := w } := by
  simp [ByteRangeIndex.flush_writebuf, hbuf]

theorem flush_writebuf_none (env : Env) (s : ByteRangeIndex) (w : World)
    (hfh : s.iwritefh = none) :
    s.flush_writebuf env w = { ret := PLFS_SUCCESS, bri := s, world := w } := by
  simp only [ByteRangeIndex.flush_writebuf, hfh]
  split <;> rfl

theorem index_add_inv (env : Env) (s : ByteRangeIndex) (w : World) (fh : IOSHandle)
    (a : AddArgs) (hm : s.bri_mutex = false) (hfh : s.iwritefh = some fh) :
    ∃ r, step env s w (Op.index_add a) = Except.ok r ∧
      r.bri.bri_mutex = false ∧ r.bri.iwritefh = some fh ∧
      written r.world.trace ++ r.bri.writebuf =
        written w.trace ++ s.writebuf ++
          [newent a.nbytes a.offset a.pid a.physoffset a.begin_timestamp a.end_timestamp] ∧
      written_len r.world.trace + r.bri.writebuf.length * env.sizeof_HostEntry =
        written_len w.trace + (s.writebuf.length + 1) * env.sizeof_HostEntry ∧
      ((∀ t h b l, env.Writen t h b l = PLFS_SUCCESS) → r.ret = PLFS_SUCCESS) := by
  simp only [step, ByteRangeIndex.index_add, Util.MutexLock, hm, Util.MutexUnlock]
  by_cases hc : Int.tmod (wrap_int (s.write_count + 1)) 1024 = 0
  · simp only [Bool.false_eq_true, if_false, hc, if_true, Except.map]
    rw [flush_writebuf_some env _ w fh (by simpa using hfh) (by simp)]
    refine ⟨_, rfl, rfl, ?_, ?_, ?_, ?_⟩
    · simpa [Result.noOut] using hfh
    · simp [Result.noOut, written_append, written]
    · simp [Result.noOut, written_len_append, written_len]
    · intro hok
      simp [Result.noOut, hok]
  · simp only [Bool.false_eq_true, if_false, hc, Except.map]
    refine ⟨_, rfl, rfl, ?_, ?_, ?_, ?_⟩
    · simpa [Result.noOut] using hfh
    · simp [Result.noOut]
    · simp [Result.noOut]
    · intro _
      rfl

theorem run_adds_inv (env : Env) (fh : IOSHandle) (args : List AddArgs) :
    ∀ (s : ByteRangeIndex) (w : World), s.bri_mutex = false → s.iwritefh = some fh →
    ∃ rr, run env s w (args.map Op.index_add) = Except.ok rr ∧
      rr.bri.bri_mutex = false ∧ rr.bri.iwritefh = some fh ∧
      written rr.world.trace ++ rr.bri.writebuf =
        written w.trace ++ s.writebuf ++
          args.map (fun a => newent a.nbytes a.offset a.pid a.physoffset a.begin_timestamp
            a.end_timestamp) ∧
      written_len rr.world.trace + rr.bri.writebuf.length * env.sizeof_HostEntry =
        written_len w.trace + (s.writebuf.length + args.length) * env.sizeof_HostEntry ∧
      rr.outs.length = args.length ∧
      ((∀ t h b l, env.Writen t h b l = PLFS_SUCCESS) →
        ∀ o ∈ rr.outs, o.ret = PLFS_SUCCESS) := by
  induction args with
  | nil =>
    intro s w hm hfh
    exact ⟨_, rfl, hm, hfh, by simp, by simp, rfl, by simp⟩
  | cons a args ih =>
    intro s w hm hfh
    obtain ⟨r, hr, hm1, hfh1, hw1, hl1, hok1⟩ := index_add_inv env s w fh a hm hfh
    obtain ⟨rr, hrr, hm2, hfh2, hw2, hl2, hn2, hok2⟩ := ih r.bri r.world hm1 hfh1
    refine ⟨{ rr with outs := r :: rr.outs }, ?_, hm2, hfh2, ?_, ?_, ?_, ?_⟩
    · simp only [List.map_cons, run, hr, hrr]
    · simp only [hw2, hw1, List.map_cons]
      simp
    · simp only [hl2, List.length_cons]
      have := hl1
      rw [Nat.add_mul] at hl2 ⊢
      rw [Nat.add_mul] at this
      rw [Nat.add_mul, Nat.add_mul]
      omega
    · simp [hn2]
    · intro hok o ho
      simp only [List.mem_cons] at ho
      rcases ho with rfl | ho
      · exact hok1 hok
      · exact hok2 hok o ho

theorem wrap_int_id (x : Int) (h0 : -(2 ^ 31) ≤ x) (h1 : x < 2 ^ 31) : wrap_int x = x := by
  unfold wrap_int
  omega

theorem wrap_off_t_id (x : Int) (h0 : -(2 ^ 63) ≤ x) (h1 : x < 2 ^ 63) : wrap_off_t x = x := by
  unfold wrap_off_t
  omega

theorem to_size_t_cast (n : Nat) (h : n < 2 ^ 64) : to_size_t (n : Int) = n := by
  show (((n : Int) % 2 ^ 64).toNat : Nat) = n
  omega

theorem tmod_1024_ne_zero (x : Int) (h0 : 0 < x) (h1 : x < 1024) : Int.tmod x 1024 ≠ 0 := by
  rw [Int.tmod_eq_emod (by omega) (by omega)]
  omega

theorem index_add_noflush (env : Env) (s : ByteRangeIndex) (w : World) (a : AddArgs)
    (hm : s.bri_mutex = false) (h0 : 0 ≤ s.write_count) (h1 : s.write_count + 1 < 1024) :
    ∃ r, step env s w (Op.index_add a) = Except.ok r ∧ r.ret = PLFS_SUCCESS ∧
      r.world = w ∧ r.bri.bri_mutex = false ∧ r.bri.iwritefh = s.iwritefh ∧
      r.bri.write_count = s.write_count + 1 ∧
      r.bri.writebuf = s.writebuf ++
        [newent a.nbytes a.offset a.pid a.physoffset a.begin_timestamp a.end_timestamp] := by
  have hw : wrap_int (s.write_count + 1) = s.write_count + 1 :=
    wrap_int_id _ (by omega) (by omega)
  have hc : Int.tmod (s.write_count + 1) 1024 ≠ 0 := tmod_1024_ne_zero _ (by omega) h1
  simp only [step, ByteRangeIndex.index_add, Util.MutexLock, hm, Util.MutexUnlock, hw,
    Bool.false_eq_true, if_false, hc, Except.map]
  exact ⟨_, rfl, rfl, rfl, rfl, rfl, rfl, rfl⟩

theorem run_adds_noflush (env : Env) (args : List AddArgs) :
    ∀ (s : ByteRangeIndex) (w : World), s.bri_mutex = false → 0 ≤ s.write_count →
    s.write_count + args.length < 1024 →
    ∃ rr, run env s w (args.map Op.index_add) = Except.ok rr ∧
      rr.world = w ∧ rr.bri.bri_mutex = false ∧ rr.bri.iwritefh = s.iwritefh ∧
      rr.bri.write_count = s.write_count + args.length ∧
      rr.bri.writebuf = s.writebuf ++ args.map (fun a =>
        newent a.nbytes a.offset a.pid a.physoffset a.begin_timestamp a.end_timestamp) := by
  induction args with
  | nil =>
    intro s w hm _ _
    exact ⟨_, rfl, rfl, hm, rfl, by simp, by simp⟩
  | cons a args ih =>
    intro s w hm h0 h1
    simp only [List.length_cons, Nat.cast_add, Nat.cast_one] at h1
    obtain ⟨r, hr, _, hw1, hm1, hfh1, hc1, hb1⟩ :=
      index_add_noflush env s w a hm h0 (by omega)
    obtain ⟨rr, hrr, hw2, hm2, hfh2, hc2, hb2⟩ :=
      ih r.bri r.world hm1 (by omega) (by omega)
    refine ⟨{ rr with outs := r :: rr.outs }, ?_, ?_, hm2, ?_, ?_, ?_⟩
    · simp only [List.map_cons, run, hr, hrr]
    · exact hw2.trans hw1
    · exact hfh2.trans hfh1
    · simp only [hc2, hc1, List.length_cons, Nat.cast_add, Nat.cast_one]
      omega
    · simp only [hb2, hb1, List.map_cons]
      simp

theorem index_add_flush (env : Env) (s : ByteRangeIndex) (w : World) (fh : IOSHandle)
    (a : AddArgs) (hm : s.bri_mutex = false) (hfh : s.iwritefh = some fh)
    (hc : Int.tmod (wrap_int (s.write_count + 1)) 1024 = 0) :
    ∃ r, s.index_add env w a.nbytes a.offset a.pid a.physoffset a.begin_timestamp
        a.end_timestamp = Except.ok r ∧
      r.world.trace = w.trace ++ [Call.Writen fh
        (s.writebuf ++
          [newent a.nbytes a.offset a.pid a.physoffset a.begin_timestamp a.end_timestamp])
        ((s.writebuf.length + 1) * env.sizeof_HostEntry)] ∧
      r.bri.writebuf = [] := by
  simp only [ByteRangeIndex.index_add, Util.MutexLock, hm, Util.MutexUnlock,
    Bool.false_eq_true, if_false, hc, if_true]
  rw [flush_writebuf_some env _ w fh (by simpa using hfh) (by simp)]
  refine ⟨_, rfl, ?_, rfl⟩
  simp

theorem flush_writebuf_mutex (env : Env) (s : ByteRangeIndex) (w : World) (m : Bool) :
    ({ s with bri_mutex := m } : ByteRangeIndex).flush_writebuf env w =
      { ret := (s.flush_writebuf env w).ret
        bri := { (s.flush_writebuf env w).bri with bri_mutex := m }
        world := (s.flush_writebuf env w).world } := by
  simp only [ByteRangeIndex.flush_writebuf]
  split
  · cases h : s.iwritefh <;> simp [h]
  · rfl

theorem flush_writebuf_frame (env : Env) (s : ByteRangeIndex) (w : World) :
    (s.flush_writebuf env w).bri = { s with writebuf := (s.flush_writebuf env w).bri.writebuf } := by
  simp only [ByteRangeIndex.flush_writebuf]
  split
  · cases h : s.iwritefh
    · cases s
      simp_all
    · simp [← h]
  · rfl

theorem flush_writebuf_buf (env : Env) (s : ByteRangeIndex) (w : World) :
    (s.flush_writebuf env w).bri.writebuf = if s.iwritefh = none then s.writebuf else [] := by
  simp only [ByteRangeIndex.flush_writebuf]
  split
  · cases h : s.iwritefh <;> simp
  · rename_i hlen
    have : s.writebuf = [] := List.length_eq_zero.mp (by simpa using hlen)
    simp [this]

theorem index_close_writable (env : Env) (s : ByteRangeIndex) (w : World)
    (lastoffp tbytesp : Bool) (hm : s.bri_mutex = false) (hopen : s.isopen = true)
    (hmode : s.brimode ≠ O_RDONLY) (hpair : s.iwritefh ≠ none → s.iwriteback ≠ none) :
    ∃ r, s.index_close env w lastoffp tbytesp = Except.ok r ∧
      r.bri =
        { ({ s with writebuf := if s.iwritefh = none then s.writebuf else []
                    write_count := 0
                    write_bytes := 0
                    iwriteback := none } : ByteRangeIndex).index_close_rside with
          brimode := -1, isopen := false } ∧
      r.lastoff = (if lastoffp then some s.eof_tracker else none) ∧
      r.tbytes = (if tbytesp then some (to_size_t s.write_bytes) else none) := by
  have hf := flush_writebuf_frame env s w
  have hb := flush_writebuf_buf env s w
  simp only [ByteRangeIndex.index_close, Util.MutexLock, hm,
    ByteRangeIndex.index_close_wside, flush_writebuf_mutex, Bool.false_eq_true, if_false]
  simp only [hopen, hmode, not_true_eq_false, ne_eq, not_false_eq_true, if_true, if_false]
  cases hfh : s.iwritefh with
  | none =>
    have h1 : (s.flush_writebuf env w).bri.iwritefh = none := by rw [hf]; exact hfh
    simp only [h1]
    refine ⟨_, rfl, ?_, rfl, rfl⟩
    rw [hfh] at hb
    simp only [if_true] at hb
    rw [hf, hb]
    simp only [ByteRangeIndex.index_close_rside, Util.MutexUnlock]
    split <;> simp [hm]
  | some fh =>
    have h1 : (s.flush_writebuf env w).bri.iwritefh = some fh := by rw [hf]; exact hfh
    cases hbk : s.iwriteback with
    | none => exact absurd hbk (hpair (by simp [hfh]))
    | some back =>
      have h2 : (s.flush_writebuf env w).bri.iwriteback = some back := by rw [hf]; exact hbk
      simp only [h1, h2]
      refine ⟨_, rfl, ?_, rfl, rfl⟩
      rw [hfh] at hb
      simp only [reduceCtorEq, if_false] at hb
      rw [hf, hb]
      simp only [ByteRangeIndex.index_close_rside, Util.MutexUnlock]
      split <;> simp [hm, hfh]

theorem index_close_rdonly (env : Env) (s : ByteRangeIndex) (w : World)
    (lastoffp tbytesp : Bool) (hm : s.bri_mutex = false) (hopen : s.isopen = true)
    (hmode : s.brimode = O_RDONLY) :
    s.index_close env w lastoffp tbytesp = Except.ok
      { ret := PLFS_SUCCESS
        bri := { s with idx := [], chunk_map := [], nchunks := 0, backing_bytes := 0,
                        brimode := -1, isopen := false }
        world := w
        lastoff := if lastoffp then some s.eof_tracker else none
        tbytes := if tbytesp then some (to_size_t s.backing_bytes) else none } := by
  have h01 : O_RDONLY ≠ O_WRONLY := by decide
  simp only [ByteRangeIndex.index_close, Util.MutexLock, hm, Bool.false_eq_true, if_false]
  simp only [hopen, hmode, not_true_eq_false, ne_eq, not_false_eq_true, if_true, if_false,
    ByteRangeIndex.index_close_rside, h01, Util.MutexUnlock]

theorem flush_writebuf_fields (env : Env) (s : ByteRangeIndex) (w : World) :
    (s.flush_writebuf env w).bri.bri_mutex = s.bri_mutex ∧
    (s.flush_writebuf env w).bri.isopen = s.isopen ∧
    (s.flush_writebuf env w).bri.brimode = s.brimode ∧
    (s.flush_writebuf env w).bri.write_count = s.write_count ∧
    (s.flush_writebuf env w).bri.write_bytes = s.write_bytes ∧
    (s.flush_writebuf env w).bri.eof_tracker = s.eof_tracker := by
  rw [flush_writebuf_frame env s w]
  exact ⟨rfl, rfl, rfl, rfl, rfl, rfl⟩

theorem index_open_load_fields (env : Env) (s : ByteRangeIndex) (w : World)
    (cof : Container_OpenFile) (open_opt : Option Plfs_open_opt) :
    (s.index_open_load env w cof open_opt).bri.bri_mutex = s.bri_mutex ∧
    (s.index_open_load env w cof open_opt).bri.isopen = s.isopen ∧
    (s.index_open_load env w cof open_opt).bri.brimode = s.brimode ∧
    (s.index_open_load env w cof open_opt).bri.write_count = s.write_count ∧
    (s.index_open_load env w cof open_opt).bri.write_bytes = s.write_bytes ∧
    (s.index_open_load env w cof open_opt).bri.writebuf = s.writebuf ∧
    (s.index_open_load env w cof open_opt).bri.iwritefh = s.iwritefh ∧
    (s.index_open_load env w cof open_opt).bri.iwriteback = s.iwriteback := by
  simp only [ByteRangeIndex.index_open_load, ByteRangeIndex.setReadSide]
  split <;> exact ⟨rfl, rfl, rfl, rfl, rfl, rfl, rfl, rfl⟩

theorem index_open_facts (env : Env) (s : ByteRangeIndex) (w : World)
    (cof : Container_OpenFile) (open_flags : Int) (open_opt : Option Plfs_open_opt)
    (r : Result) (h : s.index_open env w cof open_flags open_opt = Except.ok r) :
    s.bri_mutex = false ∧ r.bri.bri_mutex = false ∧
    r.bri.write_count = s.write_count ∧ r.bri.write_bytes = s.write_bytes ∧
    r.bri.writebuf = s.writebuf ∧
    r.bri.iwritefh = s.iwritefh ∧ r.bri.iwriteback = s.iwriteback ∧
    (r.ret = PLFS_SUCCESS → r.bri.isopen = true ∧ r.bri.brimode = open_flags) ∧
    (r.ret ≠ PLFS_SUCCESS → r.bri.isopen = s.isopen ∧ r.bri.brimode = s.brimode) := by
  cases hm : s.bri_mutex with
  | true => simp [ByteRangeIndex.index_open, Util.MutexLock, hm] at h
  | false =>
    have hl := index_open_load_fields env { s with bri_mutex := true } w cof open_opt
    simp only [ByteRangeIndex.index_open, Util.MutexLock, hm, Bool.false_eq_true, if_false,
      Except.ok.injEq, Util.MutexUnlock] at h
    generalize ByteRangeIndex.index_open_load env _ w cof open_opt = L at h hl
    obtain ⟨_, h2, h3, h4, h5, h6, h7, h8⟩ := hl
    simp only at h2 h3 h4 h5 h6 h7 h8
    subst h
    by_cases c1 : open_flags ≠ O_WRONLY
    · by_cases c2 : L.ret = PLFS_SUCCESS ∧ open_flags = O_RDWR
      · obtain ⟨c3, c4⟩ := c2
        subst c4
        have h21 : O_RDWR ≠ O_WRONLY := by decide
        simp [h21, c3, h4, h5, h6, h7, h8]
      · have c1b : ¬ open_flags = O_WRONLY := c1
        by_cases c3 : L.ret = PLFS_SUCCESS
        · have c4 : ¬ open_flags = O_RDWR := fun h => c2 ⟨c3, h⟩
          simp [c1b, c3, c4, h4, h5, h6, h7, h8]
        · simp [c1b, c3, h2, h3, h4, h5, h6, h7, h8]
    · have c1b : open_flags = O_WRONLY := not_not.mp c1
      simp [c1b]

theorem index_new_wdrop_facts (env : Env) (s : ByteRangeIndex) (w : World)
    (cof : Container_OpenFile) (ts : String) (pid : pid_t) (filename : String) (r : Result)
    (h : s.index_new_wdrop env w cof ts pid filename = Except.ok r) :
    r.bri.isopen = s.isopen ∧ r.bri.brimode = s.brimode ∧
    r.bri.write_count = s.write_count ∧ r.bri.write_bytes = s.write_bytes ∧
    (r.bri.bri_mutex = true → s.bri_mutex = true) := by
  by_cases hfh : s.iwritefh = none
  · cases hm : s.bri_mutex with
    | true => simp [ByteRangeIndex.index_new_wdrop, Util.MutexLock, hm, hfh] at h
    | false =>
      simp only [ByteRangeIndex.index_new_wdrop, Util.MutexLock, hm, hfh, Bool.false_eq_true,
        if_false, Except.ok.injEq, Util.MutexUnlock, ne_eq, not_true_eq_false, if_true] at h
      subst h
      refine ⟨?_, ?_, ?_, ?_, ?_⟩
      all_goals first
        | (simp only; split <;> simp)
        | simp
  · simp only [ByteRangeIndex.index_new_wdrop, ne_eq, hfh, not_false_eq_true, if_true,
      Except.ok.injEq] at h
    subst h
    exact ⟨rfl, rfl, rfl, rfl, fun h => h⟩

theorem index_add_facts (env : Env) (s : ByteRangeIndex) (w : World) (a : AddArgs)
    (r : Result)
    (h : s.index_add env w a.nbytes a.offset a.pid a.physoffset a.begin_timestamp
      a.end_timestamp = Except.ok r) :
    s.bri_mutex = false ∧ r.bri.bri_mutex = false ∧
    r.bri.isopen = s.isopen ∧ r.bri.brimode = s.brimode ∧
    r.bri.write_count = wrap_int (s.write_count + 1) ∧
    r.bri.write_bytes = wrap_off_t (s.write_bytes + a.nbytes) ∧
    r.bri.eof_tracker = s.eof_tracker := by
  cases hm : s.bri_mutex with
  | true => simp [ByteRangeIndex.index_add, Util.MutexLock, hm] at h
  | false =>
    simp only [ByteRangeIndex.index_add, Util.MutexLock, hm, Bool.false_eq_true, if_false,
      Except.ok.injEq, Util.MutexUnlock] at h
    subst h
    by_cases hc : Int.tmod (wrap_int (s.write_count + 1)) 1024 = 0
    · rw [if_pos hc]
      obtain ⟨_, h2, h3, h4, h5, h6⟩ := flush_writebuf_fields env
        { s with bri_mutex := true
                 writebuf := s.writebuf ++
                   [newent a.nbytes a.offset a.pid a.physoffset a.begin_timestamp
                     a.end_timestamp]
                 write_count := wrap_int (s.write_count + 1)
                 write_bytes := wrap_off_t (s.write_bytes + a.nbytes) } w
      exact ⟨rfl, rfl, h2, h3, h4, h5, h6⟩
    · rw [if_neg hc]
      exact ⟨rfl, rfl, rfl, rfl, rfl, rfl, rfl⟩

theorem index_sync_facts (env : Env) (s : ByteRangeIndex) (w : World) (r : Result)
    (h : s.index_sync env w = Except.ok r) :
    s.bri_mutex = false ∧ r.bri.bri_mutex = false ∧
    r.bri.isopen = s.isopen ∧ r.bri.brimode = s.brimode ∧
    r.bri.write_count = s.write_count ∧ r.bri.write_bytes = s.write_bytes ∧
    r.bri.eof_tracker = s.eof_tracker := by
  cases hm : s.bri_mutex with
  | true => simp [ByteRangeIndex.index_sync, Util.MutexLock, hm] at h
  | false =>
    simp only [ByteRangeIndex.index_sync, Util.MutexLock, hm, Bool.false_eq_true, if_false,
      Except.ok.injEq, Util.MutexUnlock] at h
    subst h
    obtain ⟨_, h2, h3, h4, h5, h6⟩ :=
      flush_writebuf_fields env { s with bri_mutex := true } w
    exact ⟨rfl, rfl, h2, h3, h4, h5, h6⟩

theorem index_close_null_deref (env : Env) (s : ByteRangeIndex) (w : World)
    (lastoffp tbytesp : Bool) (fh : IOSHandle) (hm : s.bri_mutex = false)
    (hopen : s.isopen = true) (hmode : s.brimode ≠ O_RDONLY) (hfh : s.iwritefh = some fh)
    (hback : s.iwriteback = none) :
    s.index_close env w lastoffp tbytesp = Except.error Fault.null_deref := by
  have hf := flush_writebuf_frame env s w
  have hfh1 : (s.flush_writebuf env w).bri.iwritefh = some fh := by rw [hf]; exact hfh
  have hback1 : (s.flush_writebuf env w).bri.iwriteback = none := by rw [hf]; exact hback
  simp only [ByteRangeIndex.index_close, Util.MutexLock, hm,
    ByteRangeIndex.index_close_wside, flush_writebuf_mutex, Bool.false_eq_true, if_false]
  simp only [hopen, hmode, hfh1, hback1, not_true_eq_false, ne_eq, not_false_eq_true, if_true,
    if_false]

theorem index_close_facts (env : Env) (s : ByteRangeIndex) (w : World)
    (lastoffp tbytesp : Bool) (r : CloseResult)
    (h : s.index_close env w lastoffp tbytesp = Except.ok r) :
    s.bri_mutex = false ∧ r.bri.isopen = false ∧ r.bri.eof_tracker = s.eof_tracker ∧
    (s.isopen = false →
      r.bri.write_count = s.write_count ∧ r.bri.write_bytes = s.write_bytes) ∧
    (s.isopen = true → r.bri.bri_mutex = false ∧
      (s.brimode ≠ O_RDONLY → r.bri.write_count = 0 ∧ r.bri.write_bytes = 0 ∧
        r.tbytes = (if tbytesp then some (to_size_t s.write_bytes) else none)) ∧
      (s.brimode = O_RDONLY →
        r.bri.write_count = s.write_count ∧ r.bri.write_bytes = s.write_bytes)) := by
  cases hm : s.bri_mutex with
  | true => simp [ByteRangeIndex.index_close, Util.MutexLock, hm] at h
  | false =>
    cases hopen : s.isopen with
    | false =>
      simp only [ByteRangeIndex.index_close, Util.MutexLock, hm, hopen, Bool.false_eq_true,
        if_false, not_false_eq_true, if_true, Except.ok.injEq] at h
      subst h
      simp [hopen]
    | true =>
      by_cases hmode : s.brimode = O_RDONLY
      · rw [index_close_rdonly env s w lastoffp tbytesp hm hopen hmode] at h
        simp only [Except.ok.injEq] at h
        subst h
        simp [hmode, hm]
      · by_cases hp : s.iwritefh ≠ none → s.iwriteback ≠ none
        · obtain ⟨r2, hr2, hbri, _, ht⟩ :=
            index_close_writable env s w lastoffp tbytesp hm hopen hmode hp
          rw [hr2] at h
          simp only [Except.ok.injEq] at h
          subst h
          rw [hbri, ht]
          simp only [ByteRangeIndex.index_close_rside]
          split <;> simp [hmode, hm]
        · exfalso
          have hp2 : s.iwritefh ≠ none ∧ s.iwriteback = none := by
            constructor
            · exact fun h0 => hp (fun h1 => absurd h0 h1)
            · exact Classical.byContradiction (fun h0 => hp (fun _ => h0))
          obtain ⟨fh, hfh⟩ := Option.ne_none_iff_exists'.mp hp2.1
          rw [index_close_null_deref env s w lastoffp tbytesp fh hm hopen hmode hfh hp2.2] at h
          cases h

theorem counters_inv_run (env : Env) (ops : List Op) :
    ∀ (s : ByteRangeIndex) (w : World) (acc : List Nat) (rr : RunResult),
    CountersInv s acc → run env s w ops = Except.ok rr → disciplined env s w ops = true →
    acc.length + (nbytes_of ops).length < 2 ^ 31 → acc.sum + (nbytes_of ops).sum < 2 ^ 63 →
    CountersInv rr.bri (added_since_open ops rr.outs acc) ∧
      (added_since_open ops rr.outs acc).sum ≤ acc.sum + (nbytes_of ops).sum := by
  induction ops with
  | nil =>
    intro s w acc rr hinv hrun _ _ _
    simp only [run, Except.ok.injEq] at hrun
    subst hrun
    exact ⟨hinv, by simp [added_since_open, nbytes_of]⟩
  | cons op ops ih =>
    intro s w acc rr hinv hrun hdisc hlen hsum
    simp only [run] at hrun
    cases hs : step env s w op with
    | error f => simp [hs] at hrun
    | ok r =>
      simp only [hs] at hrun
      cases hrest : run env r.bri r.world ops with
      | error f => simp [hrest] at hrun
      | ok rr2 =>
        simp only [hrest, Except.ok.injEq] at hrun
        subst hrun
        simp only [disciplined, hs, Bool.and_eq_true] at hdisc
        obtain ⟨hall, hdisc2⟩ := hdisc
        obtain ⟨hmx, hcnt⟩ := hinv
        cases op with
        | index_open cof open_flags open_opt =>
          simp only [step, Except.map] at hs
          cases hop : s.index_open env w cof open_flags open_opt with
          | error f => simp [hop] at hs
          | ok r0 =>
            simp only [hop, Except.ok.injEq] at hs
            subst hs
            obtain ⟨_, f2, f3, f4, _, _, _, f5, f6⟩ :=
              index_open_facts env s w cof open_flags open_opt r0 hop
            simp only [Op.allowed, Bool.not_eq_true'] at hall
            simp only [hall, Bool.false_eq_true, false_and, if_false] at hcnt
            simp only [nbytes_of] at hlen hsum
            have hinv2 : CountersInv r0.bri (if r0.ret = PLFS_SUCCESS then [] else acc) := by
              refine ⟨fun h => by simp [Result.noOut, f2] at h, ?_⟩
              by_cases hr : r0.ret = PLFS_SUCCESS
              · obtain ⟨g1, g2⟩ := f5 hr
                simp only [hr, if_true, g1, g2, true_and, f3, f4, hcnt.1, hcnt.2,
                  List.length_nil, List.sum_nil, Nat.cast_zero, and_self, ite_self]
              · obtain ⟨g1, g2⟩ := f6 hr
                simp only [hr, if_false, g1, hall, Bool.false_eq_true, false_and, f3, f4,
                  hcnt.1, hcnt.2, and_self]
            have hb := ih r0.bri r0.world (if r0.ret = PLFS_SUCCESS then [] else acc) rr2
              hinv2 hrest hdisc2
              (by
                split
                · simp only [List.length_nil]
                  omega
                · exact hlen)
              (by
                split
                · simp only [List.sum_nil]
                  omega
                · exact hsum)
            simp only [added_since_open, Result.noOut, nbytes_of]
            refine ⟨hb.1, le_trans hb.2 ?_⟩
            split
            · simp only [List.sum_nil]
              omega
            · exact le_refl _
        | index_new_wdrop cof ts pid filename =>
          simp only [step, Except.map] at hs
          cases hop : s.index_new_wdrop env w cof ts pid filename with
          | error f => simp [hop] at hs
          | ok r0 =>
            simp only [hop, Except.ok.injEq] at hs
            subst hs
            obtain ⟨f1, f2, f3, f4, f5⟩ := index_new_wdrop_facts env s w cof ts pid filename r0 hop
            simp only [nbytes_of] at hlen hsum
            have hinv2 : CountersInv r0.bri acc := by
              refine ⟨fun h => by rw [f1]; exact hmx (f5 h), ?_⟩
              rw [f1, f2, f3, f4]
              exact hcnt
            have hb := ih r0.bri r0.world acc rr2 hinv2 hrest hdisc2 hlen hsum
            simpa only [added_since_open, Result.noOut, nbytes_of] using hb
        | index_add a =>
          simp only [step, Except.map] at hs
          cases hop : s.index_add env w a.nbytes a.offset a.pid a.physoffset a.begin_timestamp
              a.end_timestamp with
          | error f => simp [hop] at hs
          | ok r0 =>
            simp only [hop, Except.ok.injEq] at hs
            subst hs
            obtain ⟨_, f2, f3, f4, f5, f6, _⟩ := index_add_facts env s w a r0 hop
            simp only [Op.allowed, Bool.and_eq_true, decide_eq_true_eq] at hall
            simp only [hall.1, hall.2, ne_eq, not_false_eq_true, and_self, if_true] at hcnt
            simp only [nbytes_of, List.length_cons, List.sum_cons] at hlen hsum
            have hinv2 : CountersInv r0.bri (acc ++ [a.nbytes]) := by
              refine ⟨fun h => by simp [f2] at h, ?_⟩
              rw [f3, f4, f5, f6]
              simp only [hall.1, hall.2, ne_eq, not_false_eq_true, and_self, if_true,
                List.length_append, List.length_singleton, List.sum_append, List.sum_singleton,
                hcnt.1, hcnt.2]
              constructor
              · rw [wrap_int_id ((acc.length : Int) + 1) (by omega) (by omega)]
                push_cast
                rfl
              · rw [wrap_off_t_id ((acc.sum : Int) + (a.nbytes : Int)) (by omega) (by omega)]
                push_cast
                rfl
            have hb := ih r0.bri r0.world (acc ++ [a.nbytes]) rr2 hinv2 hrest hdisc2
              (by simp only [List.length_append, List.length_singleton]; omega)
              (by simp only [List.sum_append, List.sum_singleton]; omega)
            simp only [added_since_open, Result.noOut, nbytes_of, List.sum_cons]
            refine ⟨hb.1, le_trans hb.2 ?_⟩
            simp only [List.sum_append, List.sum_singleton]
            omega
        | index_sync =>
          simp only [step, Except.map] at hs
          cases hop : s.index_sync env w with
          | error f => simp [hop] at hs
          | ok r0 =>
            simp only [hop, Except.ok.injEq] at hs
            subst hs
            obtain ⟨_, f2, f3, f4, f5, f6, _⟩ := index_sync_facts env s w r0 hop
            simp only [nbytes_of] at hlen hsum
            have hinv2 : CountersInv r0.bri acc := by
              refine ⟨fun h => by simp [f2] at h, ?_⟩
              rw [f3, f4, f5, f6]
              exact hcnt
            have hb := ih r0.bri r0.world acc rr2 hinv2 hrest hdisc2 hlen hsum
            simpa only [added_since_open, Result.noOut, nbytes_of] using hb
        | index_close lastoffp tbytesp =>
          simp only [step] at hs
          obtain ⟨_, f2, _, f3, f4⟩ := index_close_facts env s w lastoffp tbytesp r hs
          simp only [nbytes_of] at hlen hsum
          have hinv2 : CountersInv r.bri acc := by
            refine ⟨fun _ => f2, ?_⟩
            simp only [f2, Bool.false_eq_true, false_and, if_false]
            cases hopen : s.isopen with
            | false =>
              simp only [hopen, Bool.false_eq_true, false_and, if_false] at hcnt
              rw [(f3 hopen).1, (f3 hopen).2]
              exact hcnt
            | true =>
              obtain ⟨_, g2, g3⟩ := f4 hopen
              by_cases hmode : s.brimode = O_RDONLY
              · simp only [hopen, hmode, ne_eq, not_true_eq_false, and_false, if_false] at hcnt
                rw [(g3 hmode).1, (g3 hmode).2]
                exact hcnt
              · exact ⟨(g2 hmode).1, (g2 hmode).2.1⟩
          have hb := ih r.bri r.world acc rr2 hinv2 hrest hdisc2 hlen hsum
          simpa only [added_since_open, nbytes_of] using hb

theorem index_close_returns (env : Env) (s : ByteRangeIndex) (w : World)
    (lastoffp tbytesp : Bool) (hm : s.bri_mutex = false)
    (hpair : s.iwritefh ≠ none → s.iwriteback ≠ none) :
    ∃ r, s.index_close env w lastoffp tbytesp = Except.ok r := by
  cases hopen : s.isopen with
  | false =>
    simp [ByteRangeIndex.index_close, Util.MutexLock, hm, hopen]
  | true =>
    by_cases hmode : s.brimode = O_RDONLY
    · exact ⟨_, index_close_rdonly env s w lastoffp tbytesp hm hopen hmode⟩
    · obtain ⟨r, hr, _⟩ :=
        index_close_writable env s w lastoffp tbytesp hm hopen hmode hpair
      exact ⟨r, hr⟩

theorem index_open_load_mutex (env : Env) (s : ByteRangeIndex) (w : World)
    (cof : Container_OpenFile) (open_opt : Option Plfs_open_opt) (m : Bool) :
    ({ s with bri_mutex := m } : ByteRangeIndex).index_open_load env w cof open_opt =
      { ret := (s.index_open_load env w cof open_opt).ret
        bri := { (s.index_open_load env w cof open_opt).bri with bri_mutex := m }
        world := (s.index_open_load env w cof open_opt).world } := by
  simp only [ByteRangeIndex.index_open_load, ByteRangeIndex.setReadSide,
    ByteRangeIndex.readSide]
  split <;> rfl

theorem index_open_ok (env : Env) (s : ByteRangeIndex) (w : World)
    (cof : Container_OpenFile) (open_flags : Int) (open_opt : Option Plfs_open_opt)
    (hm : s.bri_mutex = false) :
    ∃ r, s.index_open env w cof open_flags open_opt = Except.ok r := by
  simp [ByteRangeIndex.index_open, Util.MutexLock, hm]

theorem index_new_wdrop_nonnull (env : Env) (s : ByteRangeIndex) (w : World)
    (cof : Container_OpenFile) (ts : String) (pid : pid_t) (filename : String)
    (hfh : s.iwritefh ≠ none) :
    s.index_new_wdrop env w cof ts pid filename =
      Except.ok { ret := PLFS_SUCCESS, bri := s, world := w } := by
  simp [ByteRangeIndex.index_new_wdrop, hfh]

theorem index_new_wdrop_null (env : Env) (s : ByteRangeIndex) (w : World)
    (cof : Container_OpenFile) (ts : String) (pid : pid_t) (filename : String)
    (hm : s.bri_mutex = false) (hfh : s.iwritefh = none) :
    s.index_new_wdrop env w cof ts pid filename = Except.ok
      { ret := (env.Open w.trace cof.subdirback (idrop_path cof ts) 1089 env.DROPPING_MODE).1
        bri :=
          if (env.Open w.trace cof.subdirback (idrop_path cof ts) 1089 env.DROPPING_MODE).1 =
              PLFS_SUCCESS then
            { s with iwritefh := (env.Open w.trace cof.subdirback (idrop_path cof ts) 1089
                       env.DROPPING_MODE).2
                     iwriteback := some cof.subdirback }
          else
            { s with iwritefh := (env.Open w.trace cof.subdirback (idrop_path cof ts) 1089
                       env.DROPPING_MODE).2 }
        world := { trace := w.trace ++
                     [Call.Open cof.subdirback (idrop_path cof ts) 1089 env.DROPPING_MODE 0]
                   umask := w.umask } } := by
  have hflags : O_WRONLY.toNat ||| O_APPEND ||| O_CREAT = 1089 := by decide
  simp only [ByteRangeIndex.index_new_wdrop, Util.MutexLock, hm, hfh, Bool.false_eq_true,
    if_false, Util.MutexUnlock, ne_eq, not_true_eq_false, if_true, hflags, idrop_path]
  split <;> simp [hm]

theorem run_cons_ok (env : Env) (s : ByteRangeIndex) (w : World) (op : Op) (ops : List Op)
    (r : CloseResult) (rr : RunResult) (hs : step env s w op = Except.ok r)
    (hrr : run env r.bri r.world ops = Except.ok rr) :
    run env s w (op :: ops) = Except.ok { rr with outs := r :: rr.outs } := by
  simp only [run, hs, hrr]

theorem step_wdrop (env : Env) (s : ByteRangeIndex) (w : World) (a : WdropArgs) (r : Result)
    (h : s.index_new_wdrop env w a.cof a.ts a.pid a.filename = Except.ok r) :
    step env s w a.op = Except.ok r.noOut := by
  simp only [WdropArgs.op, step, h, Except.map]

theorem run_wdrops (env : Env)
    (hback : ∀ t b p f m, (env.Open t b p f m).1 = PLFS_SUCCESS → (env.Open t b p f m).2 ≠ none)
    (calls : List WdropArgs) :
    ∀ (s : ByteRangeIndex) (w : World), s.bri_mutex = false →
    ∃ rr added, run env s w (calls.map WdropArgs.op) = Except.ok rr ∧
      rr.world.trace = w.trace ++ added ∧
      open_successes env w.trace added ≤ (if s.iwritefh = none then 1 else 0) ∧
      (s.iwritefh ≠ none → rr.bri = s ∧ rr.world = w) := by
  induction calls with
  | nil =>
    intro s w _
    exact ⟨_, [], rfl, by simp, by simp [open_successes], fun _ => ⟨rfl, rfl⟩⟩
  | cons a calls ih =>
    intro s w hm
    by_cases hfh : s.iwritefh = none
    · have hstep := index_new_wdrop_null env s w a.cof a.ts a.pid a.filename hm hfh
      generalize hp : env.Open w.trace a.cof.subdirback (idrop_path a.cof a.ts) 1089
        env.DROPPING_MODE = p at hstep
      by_cases hok : p.1 = PLFS_SUCCESS
      · rw [if_pos hok] at hstep
        obtain ⟨rr, added, hrr, htr, hle, _⟩ :=
          ih { s with iwritefh := p.2, iwriteback := some a.cof.subdirback }
            { trace := w.trace ++
                [Call.Open a.cof.subdirback (idrop_path a.cof a.ts) 1089 env.DROPPING_MODE 0]
              umask := w.umask } hm
        have hnn : p.2 ≠ none := by
          rw [← hp] at hok ⊢
          exact hback _ _ _ _ _ hok
        have hrun := run_cons_ok env s w a.op (calls.map WdropArgs.op) _ rr
          (step_wdrop env s w a _ hstep) hrr
        refine ⟨_,
          Call.Open a.cof.subdirback (idrop_path a.cof a.ts) 1089 env.DROPPING_MODE 0 :: added,
          hrun, ?_, ?_, fun h => absurd hfh h⟩
        · show rr.world.trace = _
          rw [htr]
          simp
        · have hle0 : open_successes env (w.trace ++
              [Call.Open a.cof.subdirback (idrop_path a.cof a.ts) 1089 env.DROPPING_MODE 0])
              added ≤ 0 := by
            simpa [hnn] using hle
          simp only [open_successes, hp, hok, if_true, hfh]
          omega
      · rw [if_neg hok] at hstep
        obtain ⟨rr, added, hrr, htr, hle, _⟩ :=
          ih { s with iwritefh := p.2 }
            { trace := w.trace ++
                [Call.Open a.cof.subdirback (idrop_path a.cof a.ts) 1089 env.DROPPING_MODE 0]
              umask := w.umask } hm
        have hrun := run_cons_ok env s w a.op (calls.map WdropArgs.op) _ rr
          (step_wdrop env s w a _ hstep) hrr
        refine ⟨_,
          Call.Open a.cof.subdirback (idrop_path a.cof a.ts) 1089 env.DROPPING_MODE 0 :: added,
          hrun, ?_, ?_, fun h => absurd hfh h⟩
        · show rr.world.trace = _
          rw [htr]
          simp
        · simp only [open_successes, hp, hok, if_false, hfh, if_true, Nat.zero_add]
          refine le_trans hle ?_
          split <;> omega
    · have hstep := index_new_wdrop_nonnull env s w a.cof a.ts a.pid a.filename hfh
      obtain ⟨rr, added, hrr, htr, hle, hsame⟩ := ih s w hm
      have hrun := run_cons_ok env s w a.op (calls.map WdropArgs.op) _ rr
        (step_wdrop env s w a _ hstep) hrr
      exact ⟨_, added, hrun, htr, hle, fun h => hsame h⟩

theorem index_query_mutex (env : Env) (s : ByteRangeIndex) (w : World)
    (cof : Container_OpenFile) (input_offset : off_t) (input_length : size_t)
    (result : List index_record) (q : QueryResult) (hm : s.bri_mutex = false)
    (h : s.index_query env w cof input_offset input_length result = Except.ok q) :
    q.bri.bri_mutex = false := by
  unfold ByteRangeIndex.index_query at h
  split at h
  · cases h
  · split at h
    · cases h
    · split at h
      · split at h
        · cases h
        · split at h
          · simp only [Except.ok.injEq] at h
            subst h
            exact hm
          · split at h
            · cases h
            · simp only at h
              split at h
              · cases h
              · simp only [Except.ok.injEq] at h
                subst h
                exact hm
      · simp only [Util.MutexLock, hm, Bool.false_eq_true, if_false, Except.ok.injEq] at h
        subst h
        rfl

end lemmas

/-! ### The write journal -/

/-- C1: from an empty buffer with a write handle and a backend whose writes succeed, N calls of
index_add followed by index_sync, made with the mutex free, all return success and hand the
backend exactly the N records, in add order, each built from its arguments;
N * sizeof(HostEntry) bytes go out, for every initial write_count, and the buffer is empty at
the end. -/
theorem C1_adds_then_sync (env : Env) (s : ByteRangeIndex) (w : World) (fh : IOSHandle)
    (args : List AddArgs) (hm : s.bri_mutex = false) (hbuf : s.writebuf = [])
    (hfh : s.iwritefh = some fh) (hok : ∀ t h b l, env.Writen t h b l = PLFS_SUCCESS) :
    ∃ rr, run env s w (args.map Op.index_add ++ [Op.index_sync]) = Except.ok rr ∧
      (∀ o ∈ rr.outs, o.ret = PLFS_SUCCESS) ∧
      written rr.world.trace = written w.trace ++ args.map (fun a =>
        ({ logical_offset := a.offset, physical_offset := a.physoffset, length := a.nbytes,
           begin_timestamp := a.begin_timestamp, end_timestamp := a.end_timestamp,
           id := a.pid } : HostEntry)) ∧
      written_len rr.world.trace = written_len w.trace + args.length * env.sizeof_HostEntry ∧
      rr.bri.writebuf = [] := by
  obtain ⟨rr, hrr, hm1, hfh1, hw1, hl1, _, hok1⟩ := run_adds_inv env fh args s w hm hfh
  rw [hbuf] at hw1 hl1
  simp only [List.append_nil, List.length_nil, Nat.zero_add] at hw1 hl1
  rw [run_append, hrr]
  simp only [run, step, ByteRangeIndex.index_sync, Util.MutexLock, hm1, Util.MutexUnlock,
    Bool.false_eq_true, if_false, Except.map]
  by_cases hb : rr.bri.writebuf = []
  · rw [flush_writebuf_nil env _ rr.world (by simpa using hb)]
    refine ⟨_, rfl, ?_, ?_, ?_, ?_⟩
    · intro o ho
      simp only [List.mem_append, List.mem_singleton] at ho
      rcases ho with ho | rfl
      · exact hok1 hok o ho
      · rfl
    · rw [hb, List.append_nil] at hw1
      exact hw1
    · rw [hb] at hl1
      simpa using hl1
    · exact hb
  · rw [flush_writebuf_some env _ rr.world fh (by simpa using hfh1) (by simpa using hb)]
    refine ⟨_, rfl, ?_, ?_, ?_, ?_⟩
    · intro o ho
      simp only [List.mem_append, List.mem_singleton] at ho
      rcases ho with ho | rfl
      · exact hok1 hok o ho
      · simp [Result.noOut, hok]
    · simp only [Result.noOut, written_append, written, List.append_nil]
      exact hw1
    · simp only [Result.noOut, written_len_append, written_len]
      simpa using hl1
    · rfl

/-- C1 at a concrete input: two adds and a sync, starting with write_count = 1023 so that the
first add already flushes. -/
theorem C1_adds_then_sync_witness :
    ∃ rr, run env_ok bri_w1023 (World.start 18)
        ([add0, add0].map Op.index_add ++ [Op.index_sync]) = Except.ok rr ∧
      (∀ o ∈ rr.outs, o.ret = PLFS_SUCCESS) ∧
      written rr.world.trace = written (World.start 18).trace ++ [add0, add0].map (fun a =>
        ({ logical_offset := a.offset, physical_offset := a.physoffset, length := a.nbytes,
           begin_timestamp := a.begin_timestamp, end_timestamp := a.end_timestamp,
           id := a.pid } : HostEntry)) ∧
      written_len rr.world.trace =
        written_len (World.start 18).trace + [add0, add0].length * env_ok.sizeof_HostEntry ∧
      rr.bri.writebuf = [] :=
  C1_adds_then_sync env_ok bri_w1023 (World.start 18) 7 [add0, add0] rfl rfl rfl
    (fun _ _ _ _ => rfl)

/-- C2, as amended: index_add, called with the mutex free on an index with a write handle,
flushes exactly when the incremented write_count is a multiple of 1024.  The flush is one
backend write of the whole buffer, the new record included, and it empties the buffer; when
the incremented write_count is no multiple of 1024 no call is made and the record stays
buffered. -/
theorem C2_flush_on_write_count (env : Env) (s : ByteRangeIndex) (w : World) (fh : IOSHandle)
    (a : AddArgs) (hm : s.bri_mutex = false) (hfh : s.iwritefh = some fh) :
    ∃ r, s.index_add env w a.nbytes a.offset a.pid a.physoffset a.begin_timestamp
        a.end_timestamp = Except.ok r ∧
      r.bri.write_count = wrap_int (s.write_count + 1) ∧
      ((1024 : Int) ∣ wrap_int (s.write_count + 1) →
        r.ret = env.Writen w.trace fh
          (s.writebuf ++
            [newent a.nbytes a.offset a.pid a.physoffset a.begin_timestamp a.end_timestamp])
          ((s.writebuf.length + 1) * env.sizeof_HostEntry) ∧
        r.world.trace = w.trace ++ [Call.Writen fh
          (s.writebuf ++
            [newent a.nbytes a.offset a.pid a.physoffset a.begin_timestamp a.end_timestamp])
          ((s.writebuf.length + 1) * env.sizeof_HostEntry)] ∧
        r.bri.writebuf = []) ∧
      (¬ (1024 : Int) ∣ wrap_int (s.write_count + 1) →
        r.ret = PLFS_SUCCESS ∧ r.world = w ∧
        r.bri.writebuf = s.writebuf ++
          [newent a.nbytes a.offset a.pid a.physoffset a.begin_timestamp a.end_timestamp]) := by
  simp only [ByteRangeIndex.index_add, Util.MutexLock, hm, Util.MutexUnlock,
    Bool.false_eq_true, if_false]
  by_cases hc : Int.tmod (wrap_int (s.write_count + 1)) 1024 = 0
  · have hd : (1024 : Int) ∣ wrap_int (s.write_count + 1) := Int.dvd_of_tmod_eq_zero hc
    simp only [hc, if_true]
    rw [flush_writebuf_some env _ w fh (by simpa using hfh) (by simp)]
    refine ⟨_, rfl, rfl, ?_, fun h => absurd hd h⟩
    intro _
    simp
  · have hd : ¬ (1024 : Int) ∣ wrap_int (s.write_count + 1) :=
      fun h => hc (Int.tmod_eq_zero_of_dvd h)
    simp only [hc, if_false]
    exact ⟨_, rfl, rfl, fun h => absurd h hd, fun _ => ⟨rfl, rfl, rfl⟩⟩

/-- C2 at a concrete input: the add that takes write_count from 1023 to 1024. -/
theorem C2_flush_on_write_count_witness :
    ∃ r, bri_w1023.index_add env_ok (World.start 18) add0.nbytes add0.offset add0.pid
        add0.physoffset add0.begin_timestamp add0.end_timestamp = Except.ok r ∧
      r.bri.write_count = wrap_int (bri_w1023.write_count + 1) ∧
      ((1024 : Int) ∣ wrap_int (bri_w1023.write_count + 1) →
        r.ret = env_ok.Writen (World.start 18).trace 7
          (bri_w1023.writebuf ++
            [newent add0.nbytes add0.offset add0.pid add0.physoffset add0.begin_timestamp
              add0.end_timestamp])
          ((bri_w1023.writebuf.length + 1) * env_ok.sizeof_HostEntry) ∧
        r.world.trace = (World.start 18).trace ++ [Call.Writen 7
          (bri_w1023.writebuf ++
            [newent add0.nbytes add0.offset add0.pid add0.physoffset add0.begin_timestamp
              add0.end_timestamp])
          ((bri_w1023.writebuf.length + 1) * env_ok.sizeof_HostEntry)] ∧
        r.bri.writebuf = []) ∧
      (¬ (1024 : Int) ∣ wrap_int (bri_w1023.write_count + 1) →
        r.ret = PLFS_SUCCESS ∧ r.world = World.start 18 ∧
        r.bri.writebuf = bri_w1023.writebuf ++
          [newent add0.nbytes add0.offset add0.pid add0.physoffset add0.begin_timestamp
            add0.end_timestamp]) :=
  C2_flush_on_write_count env_ok bri_w1023 (World.start 18) 7 add0 rfl rfl

/-- C2 as stated fails: open for writing, create the dropping, add one record, sync, add 1022
more.  The buffer then holds 1022 records and write_count is 1023, so the next add flushes a
buffer of 1023 records, which is not a multiple of 1024. -/
theorem C2_counterexample :
    ∃ rr r, run env_ok ByteRangeIndex.new (World.start 18)
        (ops_add_sync ++ (List.replicate 1022 add0).map Op.index_add) = Except.ok rr ∧
      rr.bri.index_add env_ok rr.world add0.nbytes add0.offset add0.pid add0.physoffset
        add0.begin_timestamp add0.end_timestamp = Except.ok r ∧
      rr.bri.writebuf.length + 1 = 1023 ∧ ¬ 1024 ∣ rr.bri.writebuf.length + 1 ∧
      r.world.trace = rr.world.trace ++
        [Call.Writen 7 (List.replicate 1023 ent0) (1023 * 48)] ∧
      r.bri.writebuf = [] := by
  have hpre : ∃ r0, run env_ok ByteRangeIndex.new (World.start 18) ops_add_sync = Except.ok r0 ∧
      r0.bri.bri_mutex = false ∧ r0.bri.write_count = 1 ∧ r0.bri.writebuf = [] ∧
      r0.bri.iwritefh = some 7 := ⟨_, rfl, rfl, rfl, rfl, rfl⟩
  obtain ⟨r0, hr0, hm0, hc0, hb0, hfh0⟩ := hpre
  obtain ⟨rr, hrr, _, hm1, hfh1, hc1, hb1⟩ :=
    run_adds_noflush env_ok (List.replicate 1022 add0) r0.bri r0.world hm0
      (by rw [hc0]; decide) (by rw [hc0, List.length_replicate]; decide)
  rw [hfh0] at hfh1
  rw [hc0, List.length_replicate] at hc1
  rw [hb0, List.nil_append, List.map_replicate] at hb1
  have hlen : rr.bri.writebuf.length = 1022 := by rw [hb1, List.length_replicate]
  obtain ⟨r, hr, ht, hb⟩ :=
    index_add_flush env_ok rr.bri rr.world 7 add0 hm1 hfh1 (by rw [hc1]; decide)
  refine ⟨{ rr with outs := r0.outs ++ rr.outs }, r, ?_, hr, ?_, ?_, ?_, hb⟩
  · rw [run_append, hr0]
    simp only [hrr]
  · rw [hlen]
  · rw [hlen]
    decide
  · rw [ht, hlen, hb1]
    have h23 : List.replicate 1023 ent0 = List.replicate 1022 ent0 ++ [ent0] :=
      List.replicate_succ' 1022 ent0
    rw [h23]
    rfl

/-- C3: with a non-empty buffer and a write handle, index_sync, called with the mutex free,
returns what the backend write returned, whatever that is, hands the backend the whole buffer
in one write and leaves the buffer empty; nothing else in the index changes. -/
theorem C3_sync_returns_write_result (env : Env) (s : ByteRangeIndex) (w : World)
    (fh : IOSHandle) (hm : s.bri_mutex = false) (hbuf : s.writebuf ≠ [])
    (hfh : s.iwritefh = some fh) :
    ∃ r, s.index_sync env w = Except.ok r ∧
      r.ret = env.Writen w.trace fh s.writebuf (s.writebuf.length * env.sizeof_HostEntry) ∧
      r.bri.writebuf = [] ∧
      r.bri = { s with writebuf := [] } ∧
      r.world.trace = w.trace ++
        [Call.Writen fh s.writebuf (s.writebuf.length * env.sizeof_HostEntry)] := by
  simp only [ByteRangeIndex.index_sync, Util.MutexLock, hm, Util.MutexUnlock,
    Bool.false_eq_true, if_false]
  rw [flush_writebuf_some env _ w fh (by simpa using hfh) (by simpa using hbuf)]
  refine ⟨_, rfl, rfl, rfl, ?_, rfl⟩
  cases s
  simp_all

/-- C3 at a concrete input: one buffered record and a backend whose write fails with error 5. -/
theorem C3_sync_returns_write_result_witness :
    ∃ r, bri_w1.index_sync env_fail (World.start 18) = Except.ok r ∧
      r.ret = env_fail.Writen (World.start 18).trace 7 bri_w1.writebuf
        (bri_w1.writebuf.length * env_fail.sizeof_HostEntry) ∧
      r.bri.writebuf = [] ∧
      r.bri = { bri_w1 with writebuf := [] } ∧
      r.world.trace = (World.start 18).trace ++
        [Call.Writen 7 bri_w1.writebuf (bri_w1.writebuf.length * env_fail.sizeof_HostEntry)] :=
  C3_sync_returns_write_result env_fail bri_w1 (World.start 18) 7 rfl (by decide) rfl

/-! ### Closing the index -/

/-- C4: index_close, called with the mutex free on an index open in a writable mode with a
write handle on its backend, returns the flush error when the flush failed, whether the handle
close failed or not, returns the error of the handle close when the flush succeeded and the
close failed, and returns success exactly when both succeeded; the handle close is made in
every case. -/
theorem C4_close_error_precedence (env : Env) (s : ByteRangeIndex) (w : World)
    (lastoffp tbytesp : Bool) (fh : IOSHandle) (back : plfs_backend)
    (hm : s.bri_mutex = false) (hopen : s.isopen = true) (hmode : s.brimode ≠ O_RDONLY)
    (hfh : s.iwritefh = some fh) (hback : s.iwriteback = some back) :
    ∃ r, s.index_close env w lastoffp tbytesp = Except.ok r ∧
      r.world.trace = (s.flush_writebuf env w).world.trace ++ [Call.Close back fh] ∧
      ((s.flush_writebuf env w).ret ≠ PLFS_SUCCESS → r.ret = (s.flush_writebuf env w).ret) ∧
      ((s.flush_writebuf env w).ret = PLFS_SUCCESS →
        env.Close (s.flush_writebuf env w).world.trace back fh ≠ PLFS_SUCCESS →
        r.ret = env.Close (s.flush_writebuf env w).world.trace back fh) ∧
      (r.ret = PLFS_SUCCESS ↔
        (s.flush_writebuf env w).ret = PLFS_SUCCESS ∧
        env.Close (s.flush_writebuf env w).world.trace back fh = PLFS_SUCCESS) := by
  have hf := flush_writebuf_frame env s w
  have hfh1 : (s.flush_writebuf env w).bri.iwritefh = some fh := by rw [hf]; exact hfh
  have hback1 : (s.flush_writebuf env w).bri.iwriteback = some back := by rw [hf]; exact hback
  simp only [ByteRangeIndex.index_close, Util.MutexLock, hm,
    ByteRangeIndex.index_close_wside, flush_writebuf_mutex, Bool.false_eq_true, if_false]
  simp only [hopen, hmode, hfh1, hback1, not_true_eq_false, ne_eq, not_false_eq_true, if_true,
    if_false]
  refine ⟨_, rfl, rfl, ?_, ?_, ?_⟩
  · intro h
    simp [h]
  · intro h1 h2
    simp [h1, h2]
  · by_cases h1 : (s.flush_writebuf env w).ret = PLFS_SUCCESS
    · by_cases h2 : env.Close (s.flush_writebuf env w).world.trace back fh = PLFS_SUCCESS
      · simp [h1, h2]
      · simp [h1, h2]
    · simp [h1]

/-- C4 at a concrete input: one buffered record, a backend whose write fails with error 5 and
whose close fails with error 9. -/
theorem C4_close_error_precedence_witness :
    ∃ r, bri_w1.index_close env_fail (World.start 18) true true = Except.ok r ∧
      r.world.trace =
        (bri_w1.flush_writebuf env_fail (World.start 18)).world.trace ++ [Call.Close 3 7] ∧
      ((bri_w1.flush_writebuf env_fail (World.start 18)).ret ≠ PLFS_SUCCESS →
        r.ret = (bri_w1.flush_writebuf env_fail (World.start 18)).ret) ∧
      ((bri_w1.flush_writebuf env_fail (World.start 18)).ret = PLFS_SUCCESS →
        env_fail.Close (bri_w1.flush_writebuf env_fail (World.start 18)).world.trace 3 7 ≠
          PLFS_SUCCESS →
        r.ret = env_fail.Close (bri_w1.flush_writebuf env_fail (World.start 18)).world.trace 3 7) ∧
      (r.ret = PLFS_SUCCESS ↔
        (bri_w1.flush_writebuf env_fail (World.start 18)).ret = PLFS_SUCCESS ∧
        env_fail.Close (bri_w1.flush_writebuf env_fail (World.start 18)).world.trace 3 7 =
          PLFS_SUCCESS) :=
  C4_close_error_precedence env_fail bri_w1 (World.start 18) true true 7 3 rfl rfl (by decide)
    rfl rfl

/-- C5: index_close of a freshly constructed index returns success, makes no backend call and
stores nothing through the out-parameters, and every data member keeps its value; but the
mutex it took is still held on return, so the index object is not as it was, and a second
index_close does not return. -/
theorem C5_close_not_open_keeps_mutex :
    ByteRangeIndex.new.index_close env_ok (World.start 18) true true =
        Except.ok
          { ret := PLFS_SUCCESS
            bri := { ByteRangeIndex.new with bri_mutex := true }
            world := World.start 18
            lastoff := none
            tbytes := none } ∧
      ({ ByteRangeIndex.new with bri_mutex := true } : ByteRangeIndex) ≠ ByteRangeIndex.new ∧
      ({ ByteRangeIndex.new with bri_mutex := true } : ByteRangeIndex).index_close env_ok
        (World.start 18) true true = Except.error Fault.blocked := by
  refine ⟨rfl, by decide, rfl⟩

/-- C6: after open for writing, creation of the index dropping (handle 7 on backend 3) and
index_close, the handle has been closed through its backend and `iwriteback` is null, but
`iwritefh` still holds the closed handle. -/
theorem C6_close_keeps_iwritefh :
    ∃ rr, run env_ok ByteRangeIndex.new (World.start 18) ops_open_wdrop_close = Except.ok rr ∧
      rr.bri.isopen = false ∧
      rr.world.trace.getLast? = some (Call.Close 3 7) ∧
      rr.bri.iwriteback = none ∧
      rr.bri.iwritefh = some 7 :=
  ⟨_, rfl, rfl, rfl, rfl, rfl⟩

/-- C7, as amended: index_close of an index open in a writable mode, called with the mutex
free and with a backend for the write handle if there is one, leaves write_count and
write_bytes at 0 whatever the flush returned; it leaves the buffer empty when the write
handle is non-null, and leaves the buffer as it was when the write handle is null. -/
theorem C7_close_resets_write_side (env : Env) (s : ByteRangeIndex) (w : World)
    (lastoffp tbytesp : Bool) (hm : s.bri_mutex = false) (hopen : s.isopen = true)
    (hmode : s.brimode ≠ O_RDONLY) (hpair : s.iwritefh ≠ none → s.iwriteback ≠ none) :
    ∃ r, s.index_close env w lastoffp tbytesp = Except.ok r ∧
      r.bri.write_count = 0 ∧ r.bri.write_bytes = 0 ∧
      (s.iwritefh ≠ none → r.bri.writebuf = []) ∧
      (s.iwritefh = none → r.bri.writebuf = s.writebuf) := by
  obtain ⟨r, hr, hbri, _, _⟩ :=
    index_close_writable env s w lastoffp tbytesp hm hopen hmode hpair
  refine ⟨r, hr, ?_, ?_, ?_, ?_⟩
  · rw [hbri]
    simp only [ByteRangeIndex.index_close_rside]
    split <;> rfl
  · rw [hbri]
    simp only [ByteRangeIndex.index_close_rside]
    split <;> rfl
  · intro h
    rw [hbri]
    simp only [ByteRangeIndex.index_close_rside]
    split <;> simp [h]
  · intro h
    rw [hbri]
    simp only [ByteRangeIndex.index_close_rside]
    split <;> simp [h]

/-- C7 at a concrete input: one buffered record, handle 7 on backend 3, a failing backend. -/
theorem C7_close_resets_write_side_witness :
    ∃ r, bri_w1.index_close env_fail (World.start 18) true true = Except.ok r ∧
      r.bri.write_count = 0 ∧ r.bri.write_bytes = 0 ∧
      (bri_w1.iwritefh ≠ none → r.bri.writebuf = []) ∧
      (bri_w1.iwritefh = none → r.bri.writebuf = bri_w1.writebuf) :=
  C7_close_resets_write_side env_fail bri_w1 (World.start 18) true true rfl rfl (by decide)
    (fun _ => by decide)

/-- C7 as stated fails: open for writing, add one record with no index dropping created, close.
The flush finds a null write handle and the record is still in the buffer after the close. -/
theorem C7_counterexample :
    ∃ rr, run env_ok ByteRangeIndex.new (World.start 18) ops_open_add_close = Except.ok rr ∧
      rr.bri.isopen = false ∧ rr.bri.writebuf = [ent0] ∧ rr.bri.writebuf ≠ [] :=
  ⟨_, rfl, rfl, rfl, by decide⟩

/-- C9: index_close of an open index with both outputs requested, called with the mutex free
and with a backend for the write handle if there is one, stores eof_tracker through lastoffp
and stores through tbytesp the value write_bytes had when the mode is not O_RDONLY, the value
backing_bytes had when it is; the store converts the off_t to size_t, which keeps every value
that is not negative. -/
theorem C9_close_outputs (env : Env) (s : ByteRangeIndex) (w : World)
    (hm : s.bri_mutex = false) (hopen : s.isopen = true)
    (hpair : s.iwritefh ≠ none → s.iwriteback ≠ none) :
    ∃ r, s.index_close env w true true = Except.ok r ∧
      r.lastoff = some s.eof_tracker ∧
      (s.brimode ≠ O_RDONLY → r.tbytes = some (to_size_t s.write_bytes)) ∧
      (s.brimode = O_RDONLY → r.tbytes = some (to_size_t s.backing_bytes)) ∧
      (∀ x : Int, 0 ≤ x → x < 2 ^ 63 → ((to_size_t x : Nat) : Int) = x) := by
  have hconv : ∀ x : Int, 0 ≤ x → x < 2 ^ 63 → ((to_size_t x : Nat) : Int) = x := by
    intro x h0 h1
    unfold to_size_t
    omega
  by_cases hmode : s.brimode = O_RDONLY
  · refine ⟨_, index_close_rdonly env s w true true hm hopen hmode, rfl, ?_, ?_, hconv⟩
    · intro h
      exact absurd hmode h
    · intro _
      rfl
  · obtain ⟨r, hr, _, hl, ht⟩ := index_close_writable env s w true true hm hopen hmode hpair
    refine ⟨r, hr, ?_, ?_, ?_, hconv⟩
    · simpa using hl
    · intro _
      simpa using ht
    · intro h
      exact absurd h hmode

/-- C9 at a concrete input: a read-only open with eof_tracker 300 and 500 backing bytes. -/
theorem C9_close_outputs_witness :
    ∃ r, bri_r.index_close env_ok (World.start 18) true true = Except.ok r ∧
      r.lastoff = some bri_r.eof_tracker ∧
      (bri_r.brimode ≠ O_RDONLY → r.tbytes = some (to_size_t bri_r.write_bytes)) ∧
      (bri_r.brimode = O_RDONLY → r.tbytes = some (to_size_t bri_r.backing_bytes)) ∧
      (∀ x : Int, 0 ≤ x → x < 2 ^ 63 → ((to_size_t x : Nat) : Int) = x) :=
  C9_close_outputs env_ok bri_r (World.start 18) rfl rfl (fun h => absurd rfl h)

/-- C8: after open for writing and one index_add of 100 bytes at offset 0, eof_tracker is still
0, not the ending offset 100 of the write, and index_close reports 0 as the last offset. -/
theorem C8_add_leaves_eof_tracker :
    ∃ rr r, run env_ok ByteRangeIndex.new (World.start 18) ops_open_add = Except.ok rr ∧
      add0.offset + add0.nbytes = 100 ∧
      rr.bri.writebuf = [ent0] ∧
      rr.bri.eof_tracker = 0 ∧
      rr.bri.index_close env_ok rr.world true true = Except.ok r ∧
      r.lastoff = some 0 :=
  ⟨_, _, rfl, rfl, rfl, rfl, rfl, rfl⟩

/-- C10, as amended: take any run of index_open, index_new_wdrop, index_add, index_sync and
index_close on a freshly constructed index in which index_open is only called on an index that
is not open and index_add only on an index open in a writable mode, with fewer than 2^31 adds
and fewer than 2^63 bytes added.  Whenever the run leaves the index open in a writable mode,
write_count is the number of index_add calls since the open and write_bytes the sum of their
nbytes; an index_close at that point reports that sum as total_bytes, and it does return when
a non-null write handle has its backend. -/
theorem C10_counters_track_adds (env : Env) (umask : Nat) (ops : List Op) (rr : RunResult)
    (hrun : run env ByteRangeIndex.new (World.start umask) ops = Except.ok rr)
    (hdisc : disciplined env ByteRangeIndex.new (World.start umask) ops = true)
    (hlen : (nbytes_of ops).length < 2 ^ 31) (hsum : (nbytes_of ops).sum < 2 ^ 63)
    (hopen : rr.bri.isopen = true) (hmode : rr.bri.brimode ≠ O_RDONLY) :
    rr.bri.write_count = ((added_since_open ops rr.outs []).length : Int) ∧
    rr.bri.write_bytes = ((added_since_open ops rr.outs []).sum : Int) ∧
    (∀ lastoffp r, rr.bri.index_close env rr.world lastoffp true = Except.ok r →
      r.tbytes = some (added_since_open ops rr.outs []).sum) ∧
    ((rr.bri.iwritefh ≠ none → rr.bri.iwriteback ≠ none) →
      ∀ lastoffp, ∃ r, rr.bri.index_close env rr.world lastoffp true = Except.ok r) := by
  have h0 : CountersInv ByteRangeIndex.new [] := by
    refine ⟨fun _ => rfl, ?_⟩
    simp [ByteRangeIndex.new]
  obtain ⟨⟨hmx, hcnt⟩, hle⟩ :=
    counters_inv_run env ops ByteRangeIndex.new (World.start umask) [] rr h0 hrun hdisc
      (by simpa using hlen) (by simpa using hsum)
  simp only [hopen, hmode, ne_eq, not_false_eq_true, and_self, if_true] at hcnt
  simp only [List.sum_nil, Nat.zero_add] at hle
  have hm : rr.bri.bri_mutex = false := by
    cases h : rr.bri.bri_mutex with
    | false => rfl
    | true => rw [hmx h] at hopen; cases hopen
  refine ⟨hcnt.1, hcnt.2, ?_, ?_⟩
  · intro lastoffp r hr
    obtain ⟨_, _, _, _, f4⟩ := index_close_facts env rr.bri rr.world lastoffp true r hr
    rw [((f4 hopen).2.1 hmode).2.2, hcnt.2]
    simp only [if_true, Option.some.injEq]
    exact to_size_t_cast _ (by omega)
  · intro hpair lastoffp
    obtain ⟨r, hr, _⟩ :=
      index_close_writable env rr.bri rr.world lastoffp true hm hopen hmode hpair
    exact ⟨r, hr⟩

/-- C10 at a concrete input: open for writing, create the dropping, add 100 bytes twice. -/
theorem C10_counters_track_adds_witness :
    ∃ rr, run env_ok ByteRangeIndex.new (World.start 18) ops_open_add2 = Except.ok rr ∧
      (rr.bri.write_count = ((added_since_open ops_open_add2 rr.outs []).length : Int) ∧
      rr.bri.write_bytes = ((added_since_open ops_open_add2 rr.outs []).sum : Int) ∧
      (∀ lastoffp r, rr.bri.index_close env_ok rr.world lastoffp true = Except.ok r →
        r.tbytes = some (added_since_open ops_open_add2 rr.outs []).sum) ∧
      ((rr.bri.iwritefh ≠ none → rr.bri.iwriteback ≠ none) →
        ∀ lastoffp, ∃ r, rr.bri.index_close env_ok rr.world lastoffp true = Except.ok r)) :=
  ⟨_, rfl, C10_counters_track_adds env_ok 18 ops_open_add2 _ rfl rfl (by decide) (by decide)
    rfl (by decide)⟩

/-- C10 as stated fails: one index_add of 100 bytes on the index before it is opened, then open
for writing.  No index_add was made since the open, yet write_count is 1, write_bytes is 100
and index_close reports 100 total bytes. -/
theorem C10_counterexample :
    ∃ rr r, run env_ok ByteRangeIndex.new (World.start 18) ops_add_open = Except.ok rr ∧
      rr.bri.isopen = true ∧ rr.bri.brimode = O_WRONLY ∧
      added_since_open ops_add_open rr.outs [] = [] ∧
      rr.bri.write_count = 1 ∧ rr.bri.write_bytes = 100 ∧
      rr.bri.index_close env_ok rr.world true true = Except.ok r ∧
      r.tbytes = some 100 :=
  ⟨_, _, rfl, rfl, rfl, rfl, rfl, rfl, rfl, rfl⟩

/-! ### Mode gating and the read side -/

/-- C11, as amended: index_add on an index open ReadOnly, called with the mutex free, is not
rejected.  It leaves the index open ReadOnly, advances write_count by one and write_bytes by
nbytes, and either appends the record to the buffer and returns success without a backend
call, or, when the incremented write_count is a multiple of 1024 and there is a write handle,
writes the buffer with the new record to the backend, empties it and returns the result of
that write. -/
theorem C11_add_on_rdonly_not_rejected (env : Env) (s : ByteRangeIndex) (w : World)
    (a : AddArgs) (hm : s.bri_mutex = false) (hopen : s.isopen = true)
    (hmode : s.brimode = O_RDONLY) :
    ∃ r, s.index_add env w a.nbytes a.offset a.pid a.physoffset a.begin_timestamp
        a.end_timestamp = Except.ok r ∧
      r.bri.isopen = true ∧ r.bri.brimode = O_RDONLY ∧
      r.bri.write_count = wrap_int (s.write_count + 1) ∧
      r.bri.write_bytes = wrap_off_t (s.write_bytes + a.nbytes) ∧
      ((r.ret = PLFS_SUCCESS ∧ r.world = w ∧
          r.bri.writebuf = s.writebuf ++
            [newent a.nbytes a.offset a.pid a.physoffset a.begin_timestamp a.end_timestamp]) ∨
        (∃ fh, s.iwritefh = some fh ∧ (1024 : Int) ∣ wrap_int (s.write_count + 1) ∧
          r.ret = env.Writen w.trace fh
            (s.writebuf ++
              [newent a.nbytes a.offset a.pid a.physoffset a.begin_timestamp a.end_timestamp])
            ((s.writebuf.length + 1) * env.sizeof_HostEntry) ∧
          r.world.trace = w.trace ++ [Call.Writen fh
            (s.writebuf ++
              [newent a.nbytes a.offset a.pid a.physoffset a.begin_timestamp a.end_timestamp])
            ((s.writebuf.length + 1) * env.sizeof_HostEntry)] ∧
          r.bri.writebuf = [])) := by
  simp only [ByteRangeIndex.index_add, Util.MutexLock, hm, Util.MutexUnlock,
    Bool.false_eq_true, if_false]
  by_cases hc : Int.tmod (wrap_int (s.write_count + 1)) 1024 = 0
  · rw [if_pos hc]
    cases hfh : s.iwritefh with
    | none =>
      rw [flush_writebuf_none env _ w (by simp [hfh])]
      exact ⟨_, rfl, hopen, hmode, rfl, rfl, Or.inl ⟨rfl, rfl, rfl⟩⟩
    | some fh =>
      rw [flush_writebuf_some env _ w fh (by simp [hfh]) (by simp)]
      refine ⟨_, rfl, hopen, hmode, rfl, rfl,
        Or.inr ⟨fh, rfl, Int.dvd_of_tmod_eq_zero hc, ?_, ?_, rfl⟩⟩
      · simp
      · simp
  · rw [if_neg hc]
    exact ⟨_, rfl, hopen, hmode, rfl, rfl, Or.inl ⟨rfl, rfl, rfl⟩⟩

/-- C11 at a concrete input: one add of 100 bytes on a read-only open. -/
theorem C11_add_on_rdonly_not_rejected_witness :
    ∃ r, bri_r.index_add env_ok (World.start 18) add0.nbytes add0.offset add0.pid
        add0.physoffset add0.begin_timestamp add0.end_timestamp = Except.ok r ∧
      r.bri.isopen = true ∧ r.bri.brimode = O_RDONLY ∧
      r.bri.write_count = wrap_int (bri_r.write_count + 1) ∧
      r.bri.write_bytes = wrap_off_t (bri_r.write_bytes + add0.nbytes) ∧
      ((r.ret = PLFS_SUCCESS ∧ r.world = World.start 18 ∧
          r.bri.writebuf = bri_r.writebuf ++
            [newent add0.nbytes add0.offset add0.pid add0.physoffset add0.begin_timestamp
              add0.end_timestamp]) ∨
        (∃ fh, bri_r.iwritefh = some fh ∧ (1024 : Int) ∣ wrap_int (bri_r.write_count + 1) ∧
          r.ret = env_ok.Writen (World.start 18).trace fh
            (bri_r.writebuf ++
              [newent add0.nbytes add0.offset add0.pid add0.physoffset add0.begin_timestamp
                add0.end_timestamp])
            ((bri_r.writebuf.length + 1) * env_ok.sizeof_HostEntry) ∧
          r.world.trace = (World.start 18).trace ++ [Call.Writen fh
            (bri_r.writebuf ++
              [newent add0.nbytes add0.offset add0.pid add0.physoffset add0.begin_timestamp
                add0.end_timestamp])
            ((bri_r.writebuf.length + 1) * env_ok.sizeof_HostEntry)] ∧
          r.bri.writebuf = [])) :=
  C11_add_on_rdonly_not_rejected env_ok bri_r (World.start 18) add0 rfl rfl rfl

/-- C11 as stated fails: index_add of 100 bytes on an index open ReadOnly returns success, and
afterwards the buffer holds the record, write_count is 1 and write_bytes is 100. -/
theorem C11_counterexample :
    bri_r.isopen = true ∧ bri_r.brimode = O_RDONLY ∧
      bri_r.writebuf = [] ∧ bri_r.write_count = 0 ∧ bri_r.write_bytes = 0 ∧
      ∃ r, bri_r.index_add env_ok (World.start 18) add0.nbytes add0.offset add0.pid
          add0.physoffset add0.begin_timestamp add0.end_timestamp = Except.ok r ∧
        r.ret = PLFS_SUCCESS ∧ r.bri.writebuf = [ent0] ∧ r.bri.write_count = 1 ∧
        r.bri.write_bytes = 100 :=
  ⟨rfl, rfl, rfl, rfl, rfl, _, rfl, rfl, rfl, rfl, rfl⟩

/-- C12: index_close of an index open ReadOnly or ReadWrite, called with the mutex free and
with a backend for the write handle if there is one, leaves the aggregated map and the chunk
table empty and the chunk count and backing_bytes at 0; index_close of an index open WriteOnly
leaves these four read-side members as they were. -/
theorem C12_close_read_side (env : Env) (s : ByteRangeIndex) (w : World)
    (lastoffp tbytesp : Bool) (hm : s.bri_mutex = false) (hopen : s.isopen = true)
    (hpair : s.iwritefh ≠ none → s.iwriteback ≠ none) :
    ∃ r, s.index_close env w lastoffp tbytesp = Except.ok r ∧
      (s.brimode = O_RDONLY ∨ s.brimode = O_RDWR →
        r.bri.idx = [] ∧ r.bri.chunk_map = [] ∧ r.bri.nchunks = 0 ∧ r.bri.backing_bytes = 0) ∧
      (s.brimode = O_WRONLY →
        r.bri.idx = s.idx ∧ r.bri.chunk_map = s.chunk_map ∧ r.bri.nchunks = s.nchunks ∧
        r.bri.backing_bytes = s.backing_bytes) := by
  have h01 : O_RDONLY ≠ O_WRONLY := by decide
  have h21 : O_RDWR ≠ O_WRONLY := by decide
  by_cases hmode : s.brimode = O_RDONLY
  · refine ⟨_, index_close_rdonly env s w lastoffp tbytesp hm hopen hmode, ?_, ?_⟩
    · intro _
      exact ⟨rfl, rfl, rfl, rfl⟩
    · intro h
      rw [hmode] at h
      exact absurd h h01
  · obtain ⟨r, hr, hbri, _, _⟩ :=
      index_close_writable env s w lastoffp tbytesp hm hopen hmode hpair
    refine ⟨r, hr, ?_, ?_⟩
    · intro h
      have hw : s.brimode ≠ O_WRONLY := by
        rcases h with h | h
        · exact absurd h hmode
        · rw [h]
          exact h21
      rw [hbri]
      simp [ByteRangeIndex.index_close_rside, hw]
    · intro h
      rw [hbri]
      simp [ByteRangeIndex.index_close_rside, h]

/-- C12 at a concrete input: a read-only open with one chunk counted and 500 backing bytes. -/
theorem C12_close_read_side_witness :
    ∃ r, bri_r.index_close env_ok (World.start 18) true true = Except.ok r ∧
      (bri_r.brimode = O_RDONLY ∨ bri_r.brimode = O_RDWR →
        r.bri.idx = [] ∧ r.bri.chunk_map = [] ∧ r.bri.nchunks = 0 ∧ r.bri.backing_bytes = 0) ∧
      (bri_r.brimode = O_WRONLY →
        r.bri.idx = bri_r.idx ∧ r.bri.chunk_map = bri_r.chunk_map ∧
        r.bri.nchunks = bri_r.nchunks ∧ r.bri.backing_bytes = bri_r.backing_bytes) :=
  C12_close_read_side env_ok bri_r (World.start 18) true true rfl rfl (fun h => absurd rfl h)

/-- C13: every index_close that returns, on an index open in any mode or not open and whatever
the backend answers, leaves eof_tracker at the value it had; and index_close does return when
it is called with the mutex free and with a backend for the write handle if there is one. -/
theorem C13_close_keeps_eof_tracker (env : Env) (s : ByteRangeIndex) (w : World)
    (lastoffp tbytesp : Bool) :
    (∀ r, s.index_close env w lastoffp tbytesp = Except.ok r →
      r.bri.eof_tracker = s.eof_tracker) ∧
    (s.bri_mutex = false → (s.iwritefh ≠ none → s.iwriteback ≠ none) →
      ∃ r, s.index_close env w lastoffp tbytesp = Except.ok r) := by
  constructor
  · intro r hr
    exact (index_close_facts env s w lastoffp tbytesp r hr).2.2.1
  · intro hm hpair
    exact index_close_returns env s w lastoffp tbytesp hm hpair

/-- C13 at a concrete input: a read-only open with eof_tracker 300 is closed and eof_tracker is
still 300. -/
theorem C13_close_keeps_eof_tracker_witness :
    ∃ r, bri_r.index_close env_fail (World.start 18) true true = Except.ok r ∧
      r.bri.eof_tracker = 300 := by
  obtain ⟨r, hr⟩ :=
    (C13_close_keeps_eof_tracker env_fail bri_r (World.start 18) true true).2 rfl
      (fun h => absurd rfl h)
  exact ⟨r, hr,
    (C13_close_keeps_eof_tracker env_fail bri_r (World.start 18) true true).1 r hr⟩

/-! ### Opening the index -/

/-- C14: index_open in ReadWrite mode, called with the mutex free, returns what the load
returned, by stream import when the open options carry a stream and by scanning the container
otherwise.  When that is success the aggregated map and the chunk table are empty and the chunk
count is 0, eof_tracker is the value the load produced, and the index is open with mode
ReadWrite. -/
theorem C14_open_rdwr_discards_map (env : Env) (s : ByteRangeIndex) (w : World)
    (cof : Container_OpenFile) (open_opt : Option Plfs_open_opt) (hm : s.bri_mutex = false) :
    ∃ r, s.index_open env w cof O_RDWR open_opt = Except.ok r ∧
      r.ret = (s.index_open_load env w cof open_opt).ret ∧
      r.world = (s.index_open_load env w cof open_opt).world ∧
      (r.ret = PLFS_SUCCESS →
        r.bri.idx = [] ∧ r.bri.chunk_map = [] ∧ r.bri.nchunks = 0 ∧
        r.bri.eof_tracker = (s.index_open_load env w cof open_opt).bri.eof_tracker ∧
        r.bri.isopen = true ∧ r.bri.brimode = O_RDWR) ∧
      (∀ o addr, open_opt = some o → o.index_stream = some addr →
        (s.index_open_load env w cof open_opt).ret =
          (env.global_from_stream w.trace s.readSide addr).1 ∧
        (s.index_open_load env w cof open_opt).bri.eof_tracker =
          (env.global_from_stream w.trace s.readSide addr).2.eof_tracker ∧
        (s.index_open_load env w cof open_opt).world.trace =
          w.trace ++ [Call.global_from_stream addr]) ∧
      (∀ o, open_opt = some o → o.index_stream = none →
        (s.index_open_load env w cof open_opt).ret =
          (env.populateIndex w.trace s.readSide cof.canbpath cof.canback true
            o.uniform_restart_enable o.uniform_restart_rank).1 ∧
        (s.index_open_load env w cof open_opt).bri.eof_tracker =
          (env.populateIndex w.trace s.readSide cof.canbpath cof.canback true
            o.uniform_restart_enable o.uniform_restart_rank).2.eof_tracker ∧
        (s.index_open_load env w cof open_opt).world.trace =
          w.trace ++ [Call.populateIndex cof.canbpath cof.canback true
            o.uniform_restart_enable o.uniform_restart_rank]) ∧
      (open_opt = none →
        (s.index_open_load env w cof open_opt).ret =
          (env.populateIndex w.trace s.readSide cof.canbpath cof.canback true false 0).1 ∧
        (s.index_open_load env w cof open_opt).bri.eof_tracker =
          (env.populateIndex w.trace s.readSide cof.canbpath cof.canback true false
            0).2.eof_tracker ∧
        (s.index_open_load env w cof open_opt).world.trace =
          w.trace ++ [Call.populateIndex cof.canbpath cof.canback true false 0]) := by
  have h21 : O_RDWR ≠ O_WRONLY := by decide
  simp only [ByteRangeIndex.index_open, Util.MutexLock, hm, index_open_load_mutex,
    Bool.false_eq_true, if_false, h21, ne_eq, not_false_eq_true, if_true, and_true,
    Util.MutexUnlock]
  refine ⟨_, rfl, ?_, ?_, ?_, ?_, ?_, ?_⟩
  · split <;> rfl
  · split <;> rfl
  · intro hr
    by_cases hL : (s.index_open_load env w cof open_opt).ret = PLFS_SUCCESS
    · simp [hL]
    · simp [hL] at hr
  · intro o addr ho hs
    subst ho
    simp [ByteRangeIndex.index_open_load, ByteRangeIndex.setReadSide, hs]
  · intro o ho hs
    subst ho
    simp [ByteRangeIndex.index_open_load, ByteRangeIndex.setReadSide, hs]
  · intro ho
    subst ho
    simp [ByteRangeIndex.index_open_load, ByteRangeIndex.setReadSide]

/-- C14 at a concrete input: a fresh index opened ReadWrite from a stream that holds one record
ending at offset 300. -/
theorem C14_open_rdwr_discards_map_witness :
    ∃ r, ByteRangeIndex.new.index_open env_load (World.start 18) cof0 O_RDWR
        (some opt_stream) = Except.ok r ∧
      r.ret = PLFS_SUCCESS ∧ r.bri.idx = [] ∧ r.bri.chunk_map = [] ∧ r.bri.nchunks = 0 ∧
      r.bri.eof_tracker = 300 ∧ r.bri.isopen = true ∧ r.bri.brimode = O_RDWR := by
  obtain ⟨r, hr, hret, _, hs, _⟩ :=
    C14_open_rdwr_discards_map env_load ByteRangeIndex.new (World.start 18) cof0
      (some opt_stream) rfl
  have h1 : r.ret = PLFS_SUCCESS := hret.trans rfl
  obtain ⟨g1, g2, g3, g4, g5, g6⟩ := hs h1
  exact ⟨r, hr, h1, g1, g2, g3, g4.trans rfl, g5, g6⟩

/-- C15: index_open in WriteOnly mode, called with the mutex free, returns success, makes no
backend call and runs no load, sets the open flag and the mode to WriteOnly and leaves every
other member as it was, the write handle among them. -/
theorem C15_open_wronly_lazy (env : Env) (s : ByteRangeIndex) (w : World)
    (cof : Container_OpenFile) (open_opt : Option Plfs_open_opt) (hm : s.bri_mutex = false) :
    ∃ r, s.index_open env w cof O_WRONLY open_opt = Except.ok r ∧
      r.ret = PLFS_SUCCESS ∧ r.world = w ∧
      r.bri = { s with isopen := true, brimode := O_WRONLY } ∧
      r.bri.iwritefh = s.iwritefh := by
  simp only [ByteRangeIndex.index_open, Util.MutexLock, hm, Bool.false_eq_true, if_false,
    ne_eq, not_true_eq_false, if_true, Util.MutexUnlock]
  refine ⟨_, rfl, rfl, rfl, ?_, rfl⟩
  simp [hm]

/-- C15 at a concrete input: a fresh index opened WriteOnly still has a null write handle. -/
theorem C15_open_wronly_lazy_witness :
    ∃ r, ByteRangeIndex.new.index_open env_ok (World.start 18) cof0 O_WRONLY none =
        Except.ok r ∧
      r.ret = PLFS_SUCCESS ∧ r.world = World.start 18 ∧
      r.bri = { ByteRangeIndex.new with isopen := true, brimode := O_WRONLY } ∧
      r.bri.iwritefh = ByteRangeIndex.new.iwritefh :=
  C15_open_wronly_lazy env_ok ByteRangeIndex.new (World.start 18) cof0 none rfl

/-! ### Queries -/

/-- C16: index_query on an open index whose open file is open ReadWrite constructs a fresh
index, opens it ReadOnly on the same container with no open options, and, when that open
succeeds, returns the return value and the result list of the query helper run on that index,
which it then closes; when the open fails it returns that error and leaves the result list as
it was.  In both cases the ReadWrite index itself is unchanged. -/
theorem C16_query_rdwr_uses_temp_index (env : Env) (s : ByteRangeIndex) (w : World)
    (cof : Container_OpenFile) (input_offset : off_t) (input_length : size_t)
    (result : List index_record) (hopen : s.isopen = true) (hmode : s.brimode = O_RDWR)
    (hflags : cof.openflags = O_RDWR) :
    ∃ t q, ByteRangeIndex.new.index_open env w cof O_RDONLY none = Except.ok t ∧
      s.index_query env w cof input_offset input_length result = Except.ok q ∧
      q.bri = s ∧ q.bri.brimode = O_RDWR ∧
      (t.ret ≠ PLFS_SUCCESS → q.ret = t.ret ∧ q.result = result ∧ q.world = t.world) ∧
      (t.ret = PLFS_SUCCESS →
        t.bri.isopen = true ∧ t.bri.brimode = O_RDONLY ∧
        q.ret = (env.query_helper t.world.trace { t.bri with bri_mutex := true } cof
          input_offset input_length result).1 ∧
        q.result = (env.query_helper t.world.trace { t.bri with bri_mutex := true } cof
          input_offset input_length result).2 ∧
        q.world.trace = t.world.trace ++ [Call.query_helper input_offset input_length] ∧
        ∃ c, t.bri.index_close env
            { t.world with trace := t.world.trace ++
                [Call.query_helper input_offset input_length] } false false = Except.ok c ∧
          c.bri.isopen = false ∧ c.world = q.world) := by
  obtain ⟨t, ht⟩ := index_open_ok env ByteRangeIndex.new w cof O_RDONLY none rfl
  obtain ⟨_, f2, _, _, _, _, _, f5, _⟩ :=
    index_open_facts env ByteRangeIndex.new w cof O_RDONLY none t ht
  have h21 : O_RDWR ≠ O_WRONLY := by decide
  by_cases hr : t.ret = PLFS_SUCCESS
  · obtain ⟨g1, g2⟩ := f5 hr
    have hc := index_close_rdonly env t.bri
      { t.world with trace := t.world.trace ++ [Call.query_helper input_offset input_length] }
      false false f2 g1 g2
    have ht1 : ({ t.bri with bri_mutex := Util.MutexUnlock true } : ByteRangeIndex) = t.bri := by
      cases hb : t.bri
      rw [hb] at f2
      simp only [Util.MutexUnlock]
      simp only at f2
      rw [f2]
    have hq : s.index_query env w cof input_offset input_length result = Except.ok
        { ret := (env.query_helper t.world.trace { t.bri with bri_mutex := true } cof
            input_offset input_length result).1
          bri := s
          world := { t.world with trace := t.world.trace ++
            [Call.query_helper input_offset input_length] }
          result := (env.query_helper t.world.trace { t.bri with bri_mutex := true } cof
            input_offset input_length result).2 } := by
      simp only [ByteRangeIndex.index_query, hflags, h21, hopen, ht, if_false, if_true,
        not_true_eq_false, ne_eq, hr, Util.MutexLock, f2, Bool.false_eq_true, ht1, hc]
    exact ⟨t, _, ht, hq, rfl, hmode, fun h => absurd hr h,
      fun _ => ⟨g1, g2, rfl, rfl, rfl, _, hc, rfl, rfl⟩⟩
  · have hq : s.index_query env w cof input_offset input_length result = Except.ok
        { ret := t.ret, bri := s, world := t.world, result := result } := by
      simp only [ByteRangeIndex.index_query, hflags, h21, hopen, ht, if_false, if_true,
        not_true_eq_false, ne_eq, hr, not_false_eq_true]
    exact ⟨t, _, ht, hq, rfl, hmode, fun _ => ⟨rfl, rfl, rfl⟩, fun h => absurd h hr⟩

/-- C16 at a concrete input: a query on an index open ReadWrite, whose own map is empty, hands
back the record found through the temporary index and leaves the index as it was. -/
theorem C16_query_rdwr_uses_temp_index_witness :
    ∃ q, bri_rw.index_query env_query (World.start 18) cof_rw 0 10 [] = Except.ok q ∧
      q.bri = bri_rw ∧ q.ret = PLFS_SUCCESS ∧ q.result = [rec0] := by
  obtain ⟨t, q, ht, hq, hb, _, _, hs⟩ :=
    C16_query_rdwr_uses_temp_index env_query bri_rw (World.start 18) cof_rw 0 10 [] rfl rfl rfl
  have ht2 : t.ret = PLFS_SUCCESS ∧ t.bri.idx = bri_r.idx := by
    have h0 : ByteRangeIndex.new.index_open env_query (World.start 18) cof_rw O_RDONLY none =
        Except.ok
          { ret := PLFS_SUCCESS
            bri := { (ByteRangeIndex.new.setReadSide bri_r.readSide) with
                     isopen := true, brimode := O_RDONLY }
            world := { trace := [Call.populateIndex cof_rw.canbpath cof_rw.canback true
                         false 0]
                       umask := 18 } } := rfl
    rw [h0] at ht
    simp only [Except.ok.injEq] at ht
    subst ht
    exact ⟨rfl, rfl⟩
  obtain ⟨_, _, g3, g4, _⟩ := hs ht2.1
  refine ⟨q, hq, hb, ?_, ?_⟩
  · rw [g3]
    simp [env_query, env_ok, ht2.2, bri_r]
  · rw [g4]
    simp [env_query, env_ok, ht2.2, bri_r]

/-! ### The index dropping -/

/-- C17: index_new_wdrop on an index whose write handle is non-null returns success, makes no
backend call and changes nothing.  Hence, on a backend whose successful open stores a non-null
handle, any sequence of index_new_wdrop calls started with the mutex free returns, and among
the backend opens it makes at most one succeeds; none is made when the handle was non-null at
the start. -/
theorem C17_new_wdrop_idempotent (env : Env) (s : ByteRangeIndex) (w : World)
    (calls : List WdropArgs) (hm : s.bri_mutex = false)
    (hback : ∀ t b p f m, (env.Open t b p f m).1 = PLFS_SUCCESS →
      (env.Open t b p f m).2 ≠ none) :
    (∀ cof ts pid filename, s.iwritefh ≠ none →
      s.index_new_wdrop env w cof ts pid filename =
        Except.ok { ret := PLFS_SUCCESS, bri := s, world := w }) ∧
    ∃ rr added, run env s w (calls.map WdropArgs.op) = Except.ok rr ∧
      rr.world.trace = w.trace ++ added ∧
      open_successes env w.trace added ≤ 1 ∧
      (s.iwritefh ≠ none → added = [] ∧ rr.bri = s) := by
  constructor
  · intro cof ts pid filename hfh
    exact index_new_wdrop_nonnull env s w cof ts pid filename hfh
  · obtain ⟨rr, added, hrr, htr, hle, hsame⟩ := run_wdrops env hback calls s w hm
    refine ⟨rr, added, hrr, htr, ?_, ?_⟩
    · refine le_trans hle ?_
      split <;> omega
    · intro hfh
      obtain ⟨h1, h2⟩ := hsame hfh
      refine ⟨?_, h1⟩
      rw [h2] at htr
      exact List.self_eq_append_right.mp htr

/-- C17 at a concrete input: three calls on a fresh index, on a backend whose first open fails
and whose later opens succeed. -/
theorem C17_new_wdrop_idempotent_witness :
    ∃ rr added, run env_retry ByteRangeIndex.new (World.start 18)
        (wdrops3.map WdropArgs.op) = Except.ok rr ∧
      rr.world.trace = (World.start 18).trace ++ added ∧
      open_successes env_retry (World.start 18).trace added ≤ 1 ∧
      (ByteRangeIndex.new.iwritefh ≠ none → added = [] ∧ rr.bri = ByteRangeIndex.new) :=
  (C17_new_wdrop_idempotent env_retry ByteRangeIndex.new (World.start 18) wdrops3 rfl
    (by
      intro t b p f m h
      by_cases ht : t = []
      · simp [env_retry, ht] at h
      · simp [env_retry, ht])).2

/-- C18: index_new_wdrop on an index whose write handle is null, called with the mutex free,
makes exactly one backend call: an open on the subdir backend of the path
subdir_path/INDEXPREFIX ts.hostname.pid, with the pid of the open file, with flags
O_WRONLY|O_APPEND|O_CREAT and mode DROPPING_MODE, under a umask of 0.  The result does not
depend on the pid and filename arguments, the umask after the call is the one before it, the
return value and the stored handle are those of the open, and the write backend becomes the
subdir backend when the open succeeded and is unchanged when it failed. -/
theorem C18_new_wdrop_opens_dropping (env : Env) (s : ByteRangeIndex) (w : World)
    (cof : Container_OpenFile) (ts : String) (pid : pid_t) (filename : String)
    (hm : s.bri_mutex = false) (hfh : s.iwritefh = none) :
    ∃ r, s.index_new_wdrop env w cof ts pid filename = Except.ok r ∧
      r.world.trace = w.trace ++
        [Call.Open cof.subdirback
          (cof.subdir_path ++ "/" ++ INDEXPREFIX ++ ts ++ "." ++ cof.hostname ++ "." ++
            toString cof.pid)
          (O_WRONLY.toNat ||| O_APPEND ||| O_CREAT) env.DROPPING_MODE 0] ∧
      r.world.umask = w.umask ∧
      r.ret = (env.Open w.trace cof.subdirback
          (cof.subdir_path ++ "/" ++ INDEXPREFIX ++ ts ++ "." ++ cof.hostname ++ "." ++
            toString cof.pid)
          (O_WRONLY.toNat ||| O_APPEND ||| O_CREAT) env.DROPPING_MODE).1 ∧
      r.bri.iwritefh = (env.Open w.trace cof.subdirback
          (cof.subdir_path ++ "/" ++ INDEXPREFIX ++ ts ++ "." ++ cof.hostname ++ "." ++
            toString cof.pid)
          (O_WRONLY.toNat ||| O_APPEND ||| O_CREAT) env.DROPPING_MODE).2 ∧
      (r.ret = PLFS_SUCCESS → r.bri.iwriteback = some cof.subdirback) ∧
      (r.ret ≠ PLFS_SUCCESS → r.bri.iwriteback = s.iwriteback) ∧
      (∀ pid2 filename2, s.index_new_wdrop env w cof ts pid2 filename2 = Except.ok r) := by
  simp only [ByteRangeIndex.index_new_wdrop, Util.MutexLock, hm, hfh, Bool.false_eq_true,
    if_false, Util.MutexUnlock, ne_eq, not_true_eq_false, if_true]
  refine ⟨_, rfl, rfl, rfl, rfl, ?_, ?_, ?_, fun _ _ => rfl⟩
  · split <;> rfl
  · intro h
    simp only at h
    simp [h]
  · intro h
    simp only at h
    simp [h]

/-- C18 at a concrete input: the first index_new_wdrop on a fresh index, for the open file of
pid 42 on host h under /back/file/hostdir.0, called by pid 43. -/
theorem C18_new_wdrop_opens_dropping_witness :
    ∃ r, ByteRangeIndex.new.index_new_wdrop env_ok (World.start 18) cof0 "1.2" 43
        "data.43" = Except.ok r ∧
      r.world.trace = [Call.Open 3 "/back/file/hostdir.0/dropping.index.1.2.h.42" 1089 420 0] ∧
      r.world.umask = 18 ∧ r.ret = PLFS_SUCCESS ∧ r.bri.iwritefh = some 7 ∧
      r.bri.iwriteback = some 3 := by
  obtain ⟨r, hr, h1, h2, h3, h4, h5, _, _⟩ :=
    C18_new_wdrop_opens_dropping env_ok ByteRangeIndex.new (World.start 18) cof0 "1.2" 43
      "data.43" rfl rfl
  have h3b : r.ret = PLFS_SUCCESS := h3.trans rfl
  refine ⟨r, hr, ?_, h2.trans rfl, h3b, h4.trans rfl, h5 h3b⟩
  rw [h1]
  decide

/-! ### Truncation and the stubs -/

/-- C19, as amended: index_droppings_zero returns success, makes no backend call and leaves the
index as it was: the aggregated map, the chunk table, the write buffer and every other member
keep their values. -/
theorem C19_droppings_zero_changes_nothing (s : ByteRangeIndex) (w : World)
    (ppip : plfs_physpathinfo) :
    (s.index_droppings_zero w ppip).ret = PLFS_SUCCESS ∧
      (s.index_droppings_zero w ppip).world = w ∧
      (s.index_droppings_zero w ppip).bri = s ∧
      (s.index_droppings_zero w ppip).bri.idx = s.idx ∧
      (s.index_droppings_zero w ppip).bri.chunk_map = s.chunk_map ∧
      (s.index_droppings_zero w ppip).bri.writebuf = s.writebuf :=
  ⟨rfl, rfl, rfl, rfl, rfl, rfl⟩

/-- C19 as stated fails: on an index that holds one map entry, one chunk and one buffered
record, index_droppings_zero returns success and all three are still there. -/
theorem C19_counterexample :
    (bri_full.index_droppings_zero (World.start 18) ppip0).ret = PLFS_SUCCESS ∧
      (bri_full.index_droppings_zero (World.start 18) ppip0).bri.idx ≠ [] ∧
      (bri_full.index_droppings_zero (World.start 18) ppip0).bri.chunk_map ≠ [] ∧
      (bri_full.index_droppings_zero (World.start 18) ppip0).bri.writebuf = [ent0] := by
  refine ⟨rfl, ?_, ?_, rfl⟩
  · simp [ByteRangeIndex.index_droppings_zero, bri_full, bri_r]
  · simp [ByteRangeIndex.index_droppings_zero, bri_full, bri_r]

/-- C20: for every index and every argument, index_truncate, index_droppings_trunc,
index_optimize and index_getattr_size return the unsupported error, index_closing_wdrop,
index_droppings_rename and index_droppings_unlink return success, and none of the seven makes
a backend call or changes a member of the index; after index_closing_wdrop the write handle is
the one it was. -/
theorem C20_stubs_leave_state (s : ByteRangeIndex) (w : World) (cof : Container_OpenFile)
    (offset : off_t) (ts : String) (pid : pid_t) (filename : String)
    (ppip src dst : plfs_physpathinfo) :
    s.index_truncate w cof offset = { ret := PLFS_ENOTSUP, bri := s, world := w } ∧
      s.index_truncate w cof 0 = { ret := PLFS_ENOTSUP, bri := s, world := w } ∧
      s.index_droppings_trunc w ppip offset = { ret := PLFS_ENOTSUP, bri := s, world := w } ∧
      s.index_optimize w cof = { ret := PLFS_ENOTSUP, bri := s, world := w } ∧
      s.index_getattr_size w ppip = { ret := PLFS_ENOTSUP, bri := s, world := w } ∧
      s.index_closing_wdrop w cof ts pid filename =
        { ret := PLFS_SUCCESS, bri := s, world := w } ∧
      (s.index_closing_wdrop w cof ts pid filename).bri.iwritefh = s.iwritefh ∧
      s.index_droppings_rename w src dst = { ret := PLFS_SUCCESS, bri := s, world := w } ∧
      s.index_droppings_unlink w ppip = { ret := PLFS_SUCCESS, bri := s, world := w } :=
  ⟨rfl, rfl, rfl, rfl, rfl, rfl, rfl, rfl, rfl⟩

/-! ### The mutex and the write handle -/

/-- C21: index_close of a freshly constructed index, entered with the mutex free, returns
success with the mutex still held; index_close of an open index, entered the same way, returns
with the mutex free. -/
theorem C21_close_not_open_returns_locked :
    ByteRangeIndex.new.bri_mutex = false ∧ ByteRangeIndex.new.isopen = false ∧
      (∃ r, ByteRangeIndex.new.index_close env_ok (World.start 18) false false = Except.ok r ∧
        r.ret = PLFS_SUCCESS ∧ r.bri.bri_mutex = true) ∧
      bri_w1.bri_mutex = false ∧ bri_w1.isopen = true ∧
      (∃ r, bri_w1.index_close env_ok (World.start 18) false false = Except.ok r ∧
        r.ret = PLFS_SUCCESS ∧ r.bri.bri_mutex = false) :=
  ⟨rfl, rfl, ⟨_, rfl, rfl, rfl⟩, rfl, rfl, ⟨_, rfl, rfl, rfl⟩⟩

/-- C22: open for writing, creation of the index dropping and index_close bring a fresh index
to a state with a non-null write handle and a null write backend.  Opened again, the object
skips the creation of a dropping, a flush writes to the handle that was closed, and the next
index_close dereferences the null backend. -/
theorem C22_handle_without_backend_reachable :
    (∃ s w, Reachable env_ok 18 s w ∧ s.iwritefh = some 7 ∧ s.iwriteback = none) ∧
      (∃ rr, run env_ok ByteRangeIndex.new (World.start 18) ops_reopen_sync = Except.ok rr ∧
        rr.world.trace.drop 1 = [Call.Close 3 7, Call.Writen 7 [ent0] 48]) ∧
      run env_ok ByteRangeIndex.new (World.start 18) ops_reopen_close =
        Except.error Fault.null_deref :=
  ⟨⟨_, _, ⟨ops_open_wdrop_close, _, rfl, rfl, rfl⟩, rfl, rfl⟩, ⟨_, rfl, rfl⟩, rfl⟩

end PLFS
